import Mathlib

set_option maxHeartbeats 1000000

set_option linter.unnecessarySeqFocus false

/-
Verification development for the Synthea FHIR extraction core
(src/mycode/synthea_extractor.py).

The Python module is embedded shallowly:

* raw FHIR resources become Lean structures whose fields are `Option`s,
  mirroring exactly the JSON keys each extractor reads (`d.get(k, dflt)`
  becomes `field.getD dflt`, `d.get(k)` becomes the bare `Option`);
* Python `list[0]` indexing, which raises `IndexError` on an empty list,
  becomes `pyIndex0 : List α → Except String α`; every extractor and the
  bundle walk therefore live in `Except String`;
* Python `dict` / `defaultdict` become association lists with in-place
  update (`aset`) and get-or-create update (`dd`), which reproduce the
  insertion-order and overwrite semantics of CPython dicts;
* `base64.b64decode(..).decode('utf-8')` is modelled by an executable
  base64 decoder plus a validating UTF-8 decoder.
-/

namespace Synthea

/-- Python truthiness of an optional string: `None` and `""` are falsy. -/
def pyTruthy : Option String → Bool
  | none => false
  | some s => decide (s ≠ "")

/-- Python `s or t` on strings: `s` if non-empty, else `t`. -/
def pyOr (s t : String) : String :=
  if s = "" then t else s

/-- Python `s[:10]` (used for the YYYY-MM-DD date truncation rule). -/
def take10 (s : String) : String :=
  String.mk (s.data.take 10)

/-- Python `s.split('/')[-1]`: the characters after the last `/`
(the whole string when there is no `/`). -/
def lastSegment (s : String) : String :=
  String.mk (s.data.foldl (fun acc c => if c = '/' then [] else acc ++ [c]) [])

/-- Trailing segment of an encounter reference as the walker computes it;
the walker only calls it after a truthiness check, so the `getD` default
is never the interesting case. -/
def refSeg (o : Option String) : String :=
  lastSegment (o.getD "")

/-- Python `lst[0]`: raises `IndexError` on an empty list. -/
def pyIndex0 : List α → Except String α
  | [] => .error "IndexError"
  | a :: _ => .ok a

/-- Strip characters satisfying `p` from both ends of a character list. -/
def stripChars (p : Char → Bool) (l : List Char) : List Char :=
  ((l.dropWhile p).reverse.dropWhile p).reverse

/-- Python `str.strip()` (ASCII whitespace is all that occurs here). -/
def pyStrip (s : String) : String :=
  String.mk (stripChars (fun c => c = ' ' ∨ c = '\t' ∨ c = '\n' ∨ c = '\r') s.data)

/-- Python `str.strip(', ')`. -/
def pyStripCommaSpace (s : String) : String :=
  String.mk (stripChars (fun c => c = ',' ∨ c = ' ') s.data)

/-- Python `sep.join(parts)`. -/
def pyJoin (sep : String) : List String → String
  | [] => ""
  | [s] => s
  | s :: rest => s ++ sep ++ pyJoin sep rest

/-- Boolean list-prefix test on characters. -/
def isPrefixCL : List Char → List Char → Bool
  | [], _ => true
  | _ :: _, [] => false
  | a :: as, b :: bs => a = b && isPrefixCL as bs

/-- Boolean list-infix test on characters. -/
def isInfixCL (n : List Char) : List Char → Bool
  | [] => n.isEmpty
  | b :: bs => isPrefixCL n (b :: bs) || isInfixCL n bs

/-- Python `needle in haystack` on strings (substring containment). -/
def containsSub (hay needle : String) : Bool :=
  isInfixCL needle.data hay.data

/-- Value of a digit string (the digit-only core of Python `int(...)`). -/
def digitsVal (l : List Char) : Nat :=
  l.foldl (fun a c => 10 * a + (c.toNat - 48)) 0

/-- Python `int(s)` restricted to plain digit strings; other shapes
(which never occur for the year prefix of an ISO date) yield `none`. -/
def pyIntDigits (l : List Char) : Option Int :=
  if l ≠ [] ∧ l.all Char.isDigit then some (digitsVal l : Int) else none

/-! ### Base64 and UTF-8 decoding (for DiagnosticReport.presentedForm) -/

/-- Index of a character in the standard base64 alphabet. -/
def b64Index (c : Char) : Option Nat :=
  if 'A' ≤ c ∧ c ≤ 'Z' then some (c.toNat - 65)
  else if 'a' ≤ c ∧ c ≤ 'z' then some (c.toNat - 71)
  else if '0' ≤ c ∧ c ≤ '9' then some (c.toNat + 4)
  else if c = '+' then some 62
  else if c = '/' then some 63
  else none

/-- Turn a list of 6-bit groups into bytes; a leftover group of one
sextet is invalid, mirroring binascii's "cannot be 1 more than a
multiple of 4" error. -/
def sextetsToBytes : List Nat → Option (List Nat)
  | [] => some []
  | [_] => none
  | [a, b] => some [(a * 4 + b / 16) % 256]
  | [a, b, c] => some [(a * 4 + b / 16) % 256, ((b % 16) * 16 + c / 4) % 256]
  | a :: b :: c :: d :: rest =>
      (sextetsToBytes rest).map
        (fun bs => (a * 4 + b / 16) % 256 :: ((b % 16) * 16 + c / 4) % 256
          :: ((c % 4) * 64 + d) % 256 :: bs)

/-- Python `base64.b64decode` (default non-strict mode): characters
outside the alphabet and `=` are discarded, the surviving length must be
a multiple of four, data stops at the first `=`. -/
def b64decode (s : String) : Option (List Nat) :=
  let cs := s.data.filter (fun c => (b64Index c).isSome || c = '=')
  let data := cs.takeWhile (fun c => c ≠ '=')
  if cs.length % 4 = 0 then sextetsToBytes (data.filterMap b64Index) else none

/-- Validating UTF-8 decoder over byte lists (rejects truncated
sequences, overlong encodings, surrogates and out-of-range points),
mirroring `bytes.decode('utf-8')` raising `UnicodeDecodeError`. -/
def utf8Decode : List Nat → Option (List Char)
  | [] => some []
  | b :: bs =>
    if b < 0x80 then (utf8Decode bs).map (fun cs => Char.ofNat b :: cs)
    else if b < 0xC2 then none
    else if b < 0xE0 then
      match bs with
      | b2 :: bs2 =>
        if 0x80 ≤ b2 ∧ b2 < 0xC0 then
          (utf8Decode bs2).map (fun cs => Char.ofNat ((b - 0xC0) * 64 + (b2 - 0x80)) :: cs)
        else none
      | [] => none
    else if b < 0xF0 then
      match bs with
      | b2 :: b3 :: bs3 =>
        if (if b = 0xE0 then 0xA0 ≤ b2 ∧ b2 < 0xC0
            else if b = 0xED then 0x80 ≤ b2 ∧ b2 < 0xA0
            else 0x80 ≤ b2 ∧ b2 < 0xC0) ∧ 0x80 ≤ b3 ∧ b3 < 0xC0 then
          (utf8Decode bs3).map
            (fun cs => Char.ofNat ((b - 0xE0) * 4096 + (b2 - 0x80) * 64 + (b3 - 0x80)) :: cs)
        else none
      | _ => none
    else if b ≤ 0xF4 then
      match bs with
      | b2 :: b3 :: b4 :: bs4 =>
        if (if b = 0xF0 then 0x90 ≤ b2 ∧ b2 < 0xC0
            else if b = 0xF4 then 0x80 ≤ b2 ∧ b2 < 0x90
            else 0x80 ≤ b2 ∧ b2 < 0xC0) ∧ 0x80 ≤ b3 ∧ b3 < 0xC0 ∧ 0x80 ≤ b4 ∧ b4 < 0xC0 then
          (utf8Decode bs4).map
            (fun cs => Char.ofNat ((b - 0xF0) * 262144 + (b2 - 0x80) * 4096
              + (b3 - 0x80) * 64 + (b4 - 0x80)) :: cs)
        else none
      | _ => none
    else none

/-- The body of the `try` in `_extract_diagnostic_report`:
`base64.b64decode(data).decode('utf-8')`, `none` when either step raises. -/
def tryDecode (s : String) : Option String :=
  ((b64decode s).bind utf8Decode).map String.mk

/-! ### Association-list model of Python dict / defaultdict -/

/-- Lookup in an association list (first match, like a dict with unique keys). -/
def alookup : List (String × α) → String → Option α
  | [], _ => none
  | (k', v') :: t, k => if k' = k then some v' else alookup t k

/-- Python `d[k] = v`: update in place (keeping the key's original
position) when present, else append at the end. -/
def aset : List (String × α) → String → α → List (String × α)
  | [], k, v => [(k, v)]
  | (k', v') :: t, k, v => if k' = k then (k, v) :: t else (k', v') :: aset t k v

/-- Python `defaultdict` read-modify-write: `d[k]` materialises `dflt` for a
missing key (appended at the end, like CPython), then `f` is applied. -/
def dd : List (String × α) → String → (α → α) → α → List (String × α)
  | [], k, f, dflt => [(k, f dflt)]
  | (k', v') :: t, k, f, dflt =>
      if k' = k then (k', f v') :: t else (k', v') :: dd t k f dflt

/-- Keys of an association list, in order. -/
def keysOf (m : List (String × α)) : List String := m.map Prod.fst

/-- Values of an association list, in order (Python `d.values()`). -/
def valuesOf (m : List (String × α)) : List α := m.map Prod.snd

/-! ### Raw FHIR resources

Each structure lists exactly the JSON keys the corresponding extractor
reads; a field is `none` when the key is absent from the mapping. -/

structure RawCoding where
  code : Option String
  display : Option String
deriving DecidableEq

structure RawCodeable where
  coding : Option (List RawCoding)
  text : Option String
deriving DecidableEq

structure RawReference where
  reference : Option String
deriving DecidableEq

structure RawName where
  given : Option (List String)
  family : Option String
deriving DecidableEq

structure RawAddress where
  line : Option (List String)
  city : Option String
  state : Option String
  postalCode : Option String
deriving DecidableEq

structure RawTelecom where
  system : Option String
  value : Option String
deriving DecidableEq

structure RawInnerExt where
  url : Option String
  valueString : Option String
deriving DecidableEq

structure RawExtension where
  url : Option String
  extension : Option (List RawInnerExt)
deriving DecidableEq

structure RawPatient where
  id : Option String
  name : Option (List RawName)
  address : Option (List RawAddress)
  telecom : Option (List RawTelecom)
  extension : Option (List RawExtension)
  birthDate : Option String
  gender : Option String
  maritalStatus : Option RawCodeable
deriving DecidableEq

structure RawCondition where
  id : Option String
  code : Option RawCodeable
  clinicalStatus : Option RawCodeable
  onsetDateTime : Option String
  abatementDateTime : Option String
  encounter : Option RawReference
deriving DecidableEq

structure RawDosage where
  text : Option String
deriving DecidableEq

structure RawMedication where
  id : Option String
  medicationCodeableConcept : Option RawCodeable
  status : Option String
  authoredOn : Option String
  dosageInstruction : Option (List RawDosage)
  reasonReference : Option (List RawReference)
  encounter : Option RawReference
deriving DecidableEq

structure RawQuantity where
  value : Option Int
  unit : Option String
deriving DecidableEq

structure RawObservation where
  id : Option String
  code : Option RawCodeable
  valueQuantity : Option RawQuantity
  valueCodeableConcept : Option RawCodeable
  valueString : Option String
  category : Option (List RawCodeable)
  effectiveDateTime : Option String
  encounter : Option RawReference
deriving DecidableEq

structure RawPeriod where
  start : Option String
  end_ : Option String
deriving DecidableEq

structure RawProcedure where
  id : Option String
  code : Option RawCodeable
  performedDateTime : Option String
  performedPeriod : Option RawPeriod
  status : Option String
  reasonReference : Option (List RawReference)
  encounter : Option RawReference
deriving DecidableEq

structure RawProtocol where
  doseNumberPositiveInt : Option Int
  series : Option String
deriving DecidableEq

structure RawImmunization where
  id : Option String
  vaccineCode : Option RawCodeable
  occurrenceDateTime : Option String
  status : Option String
  protocolApplied : Option (List RawProtocol)
  encounter : Option RawReference
deriving DecidableEq

structure RawAttachment where
  data : Option String
deriving DecidableEq

structure RawDiagnosticReport where
  id : Option String
  code : Option RawCodeable
  presentedForm : Option (List RawAttachment)
  effectiveDateTime : Option String
  effectivePeriod : Option RawPeriod
  conclusion : Option String
  encounter : Option RawReference
deriving DecidableEq

structure RawClass where
  code : Option String
  display : Option String
deriving DecidableEq

structure RawProvider where
  display : Option String
deriving DecidableEq

structure RawEncounter where
  id : Option String
  type_ : Option (List RawCodeable)
  class_ : Option RawClass
  period : Option RawPeriod
  reasonCode : Option (List RawCodeable)
  serviceProvider : Option RawProvider
deriving DecidableEq

/-- One bundle entry, already dispatched on its `resourceType`
discriminator; `other` stands for every unknown resource kind, which the
walker silently skips. -/
inductive RawResource where
  | patient (r : RawPatient)
  | encounter (r : RawEncounter)
  | condition (r : RawCondition)
  | medicationRequest (r : RawMedication)
  | observation (r : RawObservation)
  | procedure (r : RawProcedure)
  | immunization (r : RawImmunization)
  | diagnosticReport (r : RawDiagnosticReport)
  | other
deriving DecidableEq

/-- Python defaults used for `d.get(k, {})` chains. -/
def emptyCoding : RawCoding := ⟨none, none⟩

def emptyCodeable : RawCodeable := ⟨none, none⟩

def emptyReference : RawReference := ⟨none⟩

def emptyPeriod : RawPeriod := ⟨none, none⟩

def emptyClass : RawClass := ⟨none, none⟩

def emptyProvider : RawProvider := ⟨none⟩

def emptyName : RawName := ⟨none, none⟩

def emptyAddress : RawAddress := ⟨none, none, none, none⟩

/-- Models `resource.get('x', {}).get('coding', [{}])[0]`. -/
def firstCoding (oc : Option RawCodeable) : Except String RawCoding :=
  pyIndex0 ((oc.getD emptyCodeable).coding.getD [emptyCoding])

/-- Models `resource.get('encounter', {}).get('reference', '')` — the extractors
always produce a string here (possibly empty), never `None`. -/
def refOf (o : Option RawReference) : Option String :=
  some ((o.getD emptyReference).reference.getD "")

/-! ### Extracted entities (the dataclasses) -/

structure Patient where
  id : String
  name : String
  birth_date : String
  gender : String
  race : String
  ethnicity : String
  marital_status : String
  address : String
  phone : String
deriving DecidableEq

/-- Property `Patient.age`: `2025 - int(self.birth_date.split('-')[0])`; `none`
models the `ValueError` Python raises when the year prefix is not a
number. -/
def Patient.age (p : Patient) : Option Int :=
  (pyIntDigits (p.birth_date.data.takeWhile (fun c => c ≠ '-'))).map (fun y => 2025 - y)

structure Condition where
  id : String
  code : String
  display : String
  clinical_status : String
  onset_date : String
  abatement_date : Option String
  encounter_ref : Option String
deriving DecidableEq

/-- Property `Condition.is_active`: `self.clinical_status == 'active' and not
self.abatement_date` — note the Python truthiness test, not an `is None`
test. -/
def Condition.is_active (c : Condition) : Bool :=
  decide (c.clinical_status = "active") && !(pyTruthy c.abatement_date)

structure Medication where
  id : String
  code : String
  display : String
  status : String
  authored_on : String
  dosage_text : String
  reason_code : String
  reason_display : String
  encounter_ref : Option String
deriving DecidableEq

/-- Tagged union for `Observation.value` (quantity value, coded text, or
plain string; `vnone` is Python `None`). -/
inductive ObsValue where
  | vnone
  | vnum (n : Int)
  | vstr (s : String)
deriving DecidableEq

structure Observation where
  id : String
  code : String
  display : String
  value : ObsValue
  unit : String
  effective_date : String
  category : String
  encounter_ref : Option String
deriving DecidableEq

structure Procedure where
  id : String
  code : String
  display : String
  performed_date : String
  status : String
  reason_code : String
  reason_display : String
  encounter_ref : Option String
deriving DecidableEq

structure Immunization where
  id : String
  vaccine_code : String
  vaccine_display : String
  occurrence_date : String
  status : String
  encounter_ref : Option String
  dose_number : Option Int
  series : Option String
deriving DecidableEq

structure DiagnosticReport where
  id : String
  code : String
  display : String
  effective_date : String
  conclusion : String
  presented_form : String
  encounter_ref : Option String
deriving DecidableEq

structure Encounter where
  id : String
  type_code : String
  type_display : String
  class_code : String
  class_display : String
  start_date : String
  end_date : Option String
  reason_code : String
  reason_display : String
  service_provider : String
  conditions : List String
  medications : List String
  observations : List String
  procedures : List String
  immunizations : List String
  diagnostic_reports : List String
deriving DecidableEq

/-- Fixed-shape per-date bucket of `events_by_date` (the defaultdict's
factory value). -/
structure DateBucket where
  encounters : List Encounter
  conditions : List Condition
  medications : List Medication
  observations : List Observation
  procedures : List Procedure
  immunizations : List Immunization
  diagnostic_reports : List DiagnosticReport
deriving DecidableEq

def emptyBucket : DateBucket := ⟨[], [], [], [], [], [], []⟩

/-- Pending linkage table value (the `encounter_refs` defaultdict). -/
structure RefBucket where
  conditions : List String
  medications : List String
  observations : List String
  procedures : List String
  immunizations : List String
  diagnostic_reports : List String
deriving DecidableEq

def emptyRefs : RefBucket := ⟨[], [], [], [], [], []⟩

/-- The aggregate record. `patient` is an `Option` because
`extract_patient_record` initialises it with `None` and only assigns it
when a Patient resource is found. -/
structure PatientRecord where
  patient : Option Patient
  conditions : List (String × Condition)
  medications : List (String × Medication)
  observations : List (String × Observation)
  procedures : List (String × Procedure)
  encounters : List (String × Encounter)
  immunizations : List (String × Immunization)
  diagnostic_reports : List (String × DiagnosticReport)
  events_by_date : List (String × DateBucket)
deriving DecidableEq

/-- Method `PatientRecord.get_events_for_date`: truncate to 10 characters, then
`self.events_by_date.get(date_key, <empty fixed-shape bucket>)`. -/
def get_events_for_date (rec : PatientRecord) (date : String) : DateBucket :=
  (alookup rec.events_by_date (take10 date)).getD emptyBucket

/-- Method `get_events_for_date` as the stateful method it is in the source:
`dict.get` never mutates the dictionary (unlike the `[...]` indexing the
walker uses on this defaultdict), so the record comes back unchanged. -/
def get_events_for_date_s (rec : PatientRecord) (date : String) :
    DateBucket × PatientRecord :=
  ((alookup rec.events_by_date (take10 date)).getD emptyBucket, rec)

/-- Method `PatientRecord.get_active_conditions`. -/
def get_active_conditions (rec : PatientRecord) : List Condition :=
  (valuesOf rec.conditions).filter (fun c => c.is_active)

/-! ### Resource extractors -/

/-- Phone loop of `_extract_patient`: first telecom entry whose `system`
equals `'phone'` contributes `value` (default `''`), then `break`. -/
def findPhone : List RawTelecom → String
  | [] => ""
  | t :: ts => if t.system = some "phone" then t.value.getD "" else findPhone ts

/-- Inner extension loop: first entry with `url == 'text'` contributes
`valueString` (default `''`), then `break`; no match leaves the
accumulator untouched. -/
def findText : List RawInnerExt → Option String
  | [] => none
  | e :: es => if e.url = some "text" then some (e.valueString.getD "") else findText es

/-- One step of the race/ethnicity extension loop: a substring test on
`url` selects the branch, and a matched inner `text` entry overwrites the
accumulator. -/
def raceEthStep (acc : String × String) (ext : RawExtension) : String × String :=
  let url := ext.url.getD ""
  if containsSub url "race" then
    match findText (ext.extension.getD []) with
    | some v => (v, acc.2)
    | none => acc
  else if containsSub url "ethnicity" then
    match findText (ext.extension.getD []) with
    | some v => (acc.1, v)
    | none => acc
  else acc

/-- Extractor `EnhancedSyntheaExtractor._extract_patient`. -/
def extract_patient (r : RawPatient) : Except String Patient := do
  let name_parts ← pyIndex0 (r.name.getD [emptyName])
  let given_names := pyJoin " " (name_parts.given.getD [])
  let family_name := name_parts.family.getD ""
  let full_name := pyStrip (given_names ++ " " ++ family_name)
  let address_parts ← pyIndex0 (r.address.getD [emptyAddress])
  let address_lines := address_parts.line.getD []
  let city := address_parts.city.getD ""
  let state := address_parts.state.getD ""
  let postal := address_parts.postalCode.getD ""
  let full_address :=
    pyStripCommaSpace (pyJoin ", " address_lines ++ ", " ++ city ++ ", " ++ state ++ " " ++ postal)
  let phone := findPhone (r.telecom.getD [])
  let re := (r.extension.getD []).foldl raceEthStep ("", "")
  return { id := r.id.getD ""
           name := full_name
           birth_date := r.birthDate.getD ""
           gender := r.gender.getD ""
           race := re.1
           ethnicity := re.2
           marital_status := (r.maritalStatus.getD emptyCodeable).text.getD ""
           address := full_address
           phone := phone }

/-- Extractor `EnhancedSyntheaExtractor._extract_condition`. -/
def extract_condition (r : RawCondition) : Except String Condition := do
  let code_data ← firstCoding r.code
  let status_coding ← firstCoding r.clinicalStatus
  return { id := r.id.getD ""
           code := code_data.code.getD ""
           display := code_data.display.getD ""
           clinical_status := status_coding.code.getD ""
           onset_date := r.onsetDateTime.getD ""
           abatement_date := r.abatementDateTime
           encounter_ref := refOf r.encounter }

/-- Extractor `EnhancedSyntheaExtractor._extract_medication`. -/
def extract_medication (r : RawMedication) : Except String Medication := do
  let med_code ← firstCoding r.medicationCodeableConcept
  let dosage_text :=
    match r.dosageInstruction.getD [] with
    | [] => ""
    | d :: _ => d.text.getD ""
  let reason_display := if (r.reasonReference.getD []) ≠ [] then "See conditions" else ""
  return { id := r.id.getD ""
           code := med_code.code.getD ""
           display := med_code.display.getD ""
           status := r.status.getD ""
           authored_on := r.authoredOn.getD ""
           dosage_text := dosage_text
           reason_code := ""
           reason_display := reason_display
           encounter_ref := refOf r.encounter }

/-- Category block of `_extract_observation`: `if 'category' in
resource`, take the first element when the list is non-empty, then the
first coding. -/
def obsCategory (r : RawObservation) : Except String String :=
  match r.category with
  | some (c :: _) => do
      let cc ← pyIndex0 (c.coding.getD [emptyCoding])
      pure (cc.code.getD "")
  | _ => pure ""

/-- Extractor `EnhancedSyntheaExtractor._extract_observation`. -/
def extract_observation (r : RawObservation) : Except String Observation := do
  let code_data ← firstCoding r.code
  let vu : ObsValue × String :=
    match r.valueQuantity with
    | some q => ((q.value.map ObsValue.vnum).getD ObsValue.vnone, q.unit.getD "")
    | none =>
      match r.valueCodeableConcept with
      | some v => (ObsValue.vstr (v.text.getD ""), "")
      | none =>
        match r.valueString with
        | some s => (ObsValue.vstr s, "")
        | none => (ObsValue.vnone, "")
  let category ← obsCategory r
  return { id := r.id.getD ""
           code := code_data.code.getD ""
           display := code_data.display.getD ""
           value := vu.1
           unit := vu.2
           effective_date := r.effectiveDateTime.getD ""
           category := category
           encounter_ref := refOf r.encounter }

/-- Extractor `EnhancedSyntheaExtractor._extract_procedure`. -/
def extract_procedure (r : RawProcedure) : Except String Procedure := do
  let code_data ← firstCoding r.code
  let reason_display := if (r.reasonReference.getD []) ≠ [] then "See conditions" else ""
  let p := r.performedDateTime.getD ""
  let performed_date :=
    if p = "" then
      match r.performedPeriod with
      | some pp => pp.start.getD ""
      | none => p
    else p
  return { id := r.id.getD ""
           code := code_data.code.getD ""
           display := code_data.display.getD ""
           performed_date := performed_date
           status := r.status.getD ""
           reason_code := ""
           reason_display := reason_display
           encounter_ref := refOf r.encounter }

/-- Extractor `EnhancedSyntheaExtractor._extract_immunization`. -/
def extract_immunization (r : RawImmunization) : Except String Immunization := do
  let vaccine_code ← pyIndex0 ((r.vaccineCode.getD emptyCodeable).coding.getD [emptyCoding])
  let vaccine_display :=
    pyOr (vaccine_code.display.getD "") ((r.vaccineCode.getD emptyCodeable).text.getD "")
  let ds : Option Int × Option String :=
    match r.protocolApplied with
    | some [] => (none, some "")
    | some (p :: _) => (p.doseNumberPositiveInt, some (p.series.getD ""))
    | none => (none, none)
  return { id := r.id.getD ""
           vaccine_code := vaccine_code.code.getD ""
           vaccine_display := vaccine_display
           occurrence_date := r.occurrenceDateTime.getD ""
           status := r.status.getD ""
           encounter_ref := refOf r.encounter
           dose_number := ds.1
           series := ds.2 }

/-- Per-form contribution inside the `presentedForm` loop: a decodable
form contributes the decoded text plus a trailing newline; a form whose
decoding raises contributes its raw `data` with no separator; a form
without `data` contributes nothing. -/
def contribOfForm (form : RawAttachment) : String :=
  match form.data with
  | none => ""
  | some d =>
    match tryDecode d with
    | some t => t ++ "\n"
    | none => d

/-- Extractor `EnhancedSyntheaExtractor._extract_diagnostic_report`. -/
def extract_diagnostic_report (r : RawDiagnosticReport) : Except String DiagnosticReport := do
  let code_data ← firstCoding r.code
  let presented_form :=
    (r.presentedForm.getD []).foldl (fun acc form => acc ++ contribOfForm form) ""
  let e := r.effectiveDateTime.getD ""
  let effective_date :=
    if e = "" then
      match r.effectivePeriod with
      | some pp => pp.start.getD ""
      | none => e
    else e
  return { id := r.id.getD ""
           code := code_data.code.getD ""
           display := code_data.display.getD ""
           effective_date := effective_date
           conclusion := r.conclusion.getD ""
           presented_form := presented_form
           encounter_ref := refOf r.encounter }

/-- Type block of `_extract_encounter`: first coding of the first type
element, `{}` when the type list is absent or empty. -/
def encTypeCoding (r : RawEncounter) : Except String RawCoding :=
  match r.type_ with
  | some (t :: _) => pyIndex0 (t.coding.getD [emptyCoding])
  | _ => pure emptyCoding

/-- Reason block of `_extract_encounter`: code and display of the first
coding of the first reasonCode element, `("", "")` when absent/empty. -/
def encReason (r : RawEncounter) : Except String (String × String) :=
  match r.reasonCode with
  | some (rc :: _) => do
      let reason_coding ← pyIndex0 (rc.coding.getD [emptyCoding])
      pure (reason_coding.code.getD "", reason_coding.display.getD "")
  | _ => pure ("", "")

/-- Extractor `EnhancedSyntheaExtractor._extract_encounter`; the linkage lists are
created empty and only written by the second pass. -/
def extract_encounter (r : RawEncounter) : Except String Encounter := do
  let type_coding ← encTypeCoding r
  let class_data := r.class_.getD emptyClass
  let period := r.period.getD emptyPeriod
  let rcd : String × String ← encReason r
  let provider := (r.serviceProvider.getD emptyProvider).display.getD ""
  return { id := r.id.getD ""
           type_code := type_coding.code.getD ""
           type_display := pyOr (type_coding.display.getD "") "General Encounter"
           class_code := class_data.code.getD ""
           class_display := pyOr (class_data.display.getD "") (class_data.code.getD "ambulatory")
           start_date := period.start.getD ""
           end_date := period.end_
           reason_code := rcd.1
           reason_display := pyOr rcd.2 "Routine follow-up"
           service_provider := provider
           conditions := []
           medications := []
           observations := []
           procedures := []
           immunizations := []
           diagnostic_reports := [] }

/-! ### Bundle walker (first pass), reference linker (second pass) -/

/-- The walker's running state: the record under construction plus the
pending `encounter_refs` linkage table. -/
structure ExtState where
  record : PatientRecord
  refs : List (String × RefBucket)
deriving DecidableEq

def initRecord : PatientRecord :=
  { patient := none, conditions := [], medications := [], observations := []
    procedures := [], encounters := [], immunizations := []
    diagnostic_reports := [], events_by_date := [] }

def initState : ExtState := { record := initRecord, refs := [] }

/-- One iteration of the first-pass loop of `extract_patient_record`:
dispatch on `resourceType`, extract, store by id, track the encounter
reference (when truthy) and the date index entry (encounters
unconditionally, the other kinds only when their date field is truthy). -/
def processEntry (st : ExtState) : RawResource → Except String ExtState
  | .patient raw => do
      let p ← extract_patient raw
      return { st with record := { st.record with patient := some p } }
  | .encounter raw => do
      let e ← extract_encounter raw
      let rec1 := { st.record with encounters := aset st.record.encounters e.id e }
      let ev := dd rec1.events_by_date (take10 e.start_date)
        (fun b => { b with encounters := b.encounters ++ [e] }) emptyBucket
      let rec2 := { rec1 with events_by_date := ev }
      return { st with record := rec2 }
  | .condition raw => do
      let c ← extract_condition raw
      let rec1 := { st.record with conditions := aset st.record.conditions c.id c }
      let refs1 :=
        if pyTruthy c.encounter_ref then
          dd st.refs (refSeg c.encounter_ref)
            (fun b => { b with conditions := b.conditions ++ [c.id] }) emptyRefs
        else st.refs
      let ev := dd rec1.events_by_date (take10 c.onset_date)
        (fun b => { b with conditions := b.conditions ++ [c] }) emptyBucket
      let rec2 :=
        if c.onset_date ≠ "" then { rec1 with events_by_date := ev } else rec1
      return { record := rec2, refs := refs1 }
  | .medicationRequest raw => do
      let m ← extract_medication raw
      let rec1 := { st.record with medications := aset st.record.medications m.id m }
      let refs1 :=
        if pyTruthy m.encounter_ref then
          dd st.refs (refSeg m.encounter_ref)
            (fun b => { b with medications := b.medications ++ [m.id] }) emptyRefs
        else st.refs
      let ev := dd rec1.events_by_date (take10 m.authored_on)
        (fun b => { b with medications := b.medications ++ [m] }) emptyBucket
      let rec2 :=
        if m.authored_on ≠ "" then { rec1 with events_by_date := ev } else rec1
      return { record := rec2, refs := refs1 }
  | .observation raw => do
      let o ← extract_observation raw
      let rec1 := { st.record with observations := aset st.record.observations o.id o }
      let refs1 :=
        if pyTruthy o.encounter_ref then
          dd st.refs (refSeg o.encounter_ref)
            (fun b => { b with observations := b.observations ++ [o.id] }) emptyRefs
        else st.refs
      let ev := dd rec1.events_by_date (take10 o.effective_date)
        (fun b => { b with observations := b.observations ++ [o] }) emptyBucket
      let rec2 :=
        if o.effective_date ≠ "" then { rec1 with events_by_date := ev } else rec1
      return { record := rec2, refs := refs1 }
  | .procedure raw => do
      let p ← extract_procedure raw
      let rec1 := { st.record with procedures := aset st.record.procedures p.id p }
      let refs1 :=
        if pyTruthy p.encounter_ref then
          dd st.refs (refSeg p.encounter_ref)
            (fun b => { b with procedures := b.procedures ++ [p.id] }) emptyRefs
        else st.refs
      let ev := dd rec1.events_by_date (take10 p.performed_date)
        (fun b => { b with procedures := b.procedures ++ [p] }) emptyBucket
      let rec2 :=
        if p.performed_date ≠ "" then { rec1 with events_by_date := ev } else rec1
      return { record := rec2, refs := refs1 }
  | .immunization raw => do
      let im ← extract_immunization raw
      let rec1 := { st.record with immunizations := aset st.record.immunizations im.id im }
      let refs1 :=
        if pyTruthy im.encounter_ref then
          dd st.refs (refSeg im.encounter_ref)
            (fun b => { b with immunizations := b.immunizations ++ [im.id] }) emptyRefs
        else st.refs
      let ev := dd rec1.events_by_date (take10 im.occurrence_date)
        (fun b => { b with immunizations := b.immunizations ++ [im] }) emptyBucket
      let rec2 :=
        if im.occurrence_date ≠ "" then { rec1 with events_by_date := ev } else rec1
      return { record := rec2, refs := refs1 }
  | .diagnosticReport raw => do
      let dr ← extract_diagnostic_report raw
      let rec1 :=
        { st.record with diagnostic_reports := aset st.record.diagnostic_reports dr.id dr }
      let refs1 :=
        if pyTruthy dr.encounter_ref then
          dd st.refs (refSeg dr.encounter_ref)
            (fun b => { b with diagnostic_reports := b.diagnostic_reports ++ [dr.id] }) emptyRefs
        else st.refs
      let ev := dd rec1.events_by_date (take10 dr.effective_date)
        (fun b => { b with diagnostic_reports := b.diagnostic_reports ++ [dr] }) emptyBucket
      let rec2 :=
        if dr.effective_date ≠ "" then { rec1 with events_by_date := ev } else rec1
      return { record := rec2, refs := refs1 }
  | .other => return st

/-- The first-pass loop over all bundle entries. -/
def foldE (st : ExtState) : List RawResource → Except String ExtState
  | [] => .ok st
  | r :: t => do
      let st1 ← processEntry st r
      foldE st1 t

/-- Overwrite an encounter's six linkage lists with a pending bucket. -/
def setLists (e : Encounter) (rb : RefBucket) : Encounter :=
  { e with conditions := rb.conditions
           medications := rb.medications
           observations := rb.observations
           procedures := rb.procedures
           immunizations := rb.immunizations
           diagnostic_reports := rb.diagnostic_reports }

/-- Second pass of `extract_patient_record`: for every pending
`(encounter_id, refs)` pair whose id exists in the encounter collection,
assign the six linkage lists; unknown encounter ids are dropped. -/
def linkPass (encs : List (String × Encounter)) :
    List (String × RefBucket) → List (String × Encounter)
  | [] => encs
  | (k, rb) :: t =>
    match alookup encs k with
    | some e => linkPass (aset encs k (setLists e rb)) t
    | none => linkPass encs t

/-- Function `EnhancedSyntheaExtractor.extract_patient_record`, starting from the
already-parsed list of bundle entries (the JSON loading and the
`entry`/`resource`/`resourceType` destructuring are folded into the
`RawResource` sum). -/
def extract_patient_record (entries : List RawResource) : Except String PatientRecord := do
  let st ← foldE initState entries
  return { st.record with encounters := linkPass st.record.encounters st.refs }

/-! ### Specification views of the walk

`processEntryT` is the error-skipping totalisation of `processEntry`;
whenever the walk succeeds the two agree, and the totalised form lets
every component of the state be characterised by an independent fold. -/

def processEntryT (st : ExtState) (r : RawResource) : ExtState :=
  match processEntry st r with
  | .ok s => s
  | .error _ => st

def foldT (st : ExtState) (l : List RawResource) : ExtState :=
  l.foldl processEntryT st

/-- Extracted patient of an entry, when the entry is a Patient resource
and extraction succeeds. -/
def patOf? : RawResource → Option Patient
  | .patient raw => (extract_patient raw).toOption
  | _ => none

def encOf? : RawResource → Option Encounter
  | .encounter raw => (extract_encounter raw).toOption
  | _ => none

def condOf? : RawResource → Option Condition
  | .condition raw => (extract_condition raw).toOption
  | _ => none

def medOf? : RawResource → Option Medication
  | .medicationRequest raw => (extract_medication raw).toOption
  | _ => none

def obsOf? : RawResource → Option Observation
  | .observation raw => (extract_observation raw).toOption
  | _ => none

def procOf? : RawResource → Option Procedure
  | .procedure raw => (extract_procedure raw).toOption
  | _ => none

def immOf? : RawResource → Option Immunization
  | .immunization raw => (extract_immunization raw).toOption
  | _ => none

def repOf? : RawResource → Option DiagnosticReport
  | .diagnosticReport raw => (extract_diagnostic_report raw).toOption
  | _ => none

/-- How one entry updates a per-kind id-keyed collection. -/
def dictStep (idOf : α → String) (of? : RawResource → Option α)
    (m : List (String × α)) (r : RawResource) : List (String × α) :=
  match of? r with
  | some a => aset m (idOf a) a
  | none => m

/-- How one entry updates the lookup result at a fixed key `x`
(last same-id entry wins, mirroring dict overwrite). -/
def pickStep (idOf : α → String) (of? : RawResource → Option α) (x : String)
    (acc : Option α) (r : RawResource) : Option α :=
  match of? r with
  | some a => if idOf a = x then some a else acc
  | none => acc

/-- How one entry updates `record.patient`. -/
def patStep (m : Option Patient) (r : RawResource) : Option Patient :=
  match patOf? r with
  | some p => some p
  | none => m

/-- How one entry updates `events_by_date`: encounters are indexed
unconditionally at `start_date[:10]`, the other kinds only when their
date field is truthy. -/
def eventsStep (m : List (String × DateBucket)) (r : RawResource) :
    List (String × DateBucket) :=
  match r with
  | .encounter raw =>
    match (extract_encounter raw).toOption with
    | some e =>
      dd m (take10 e.start_date) (fun b => { b with encounters := b.encounters ++ [e] })
        emptyBucket
    | none => m
  | .condition raw =>
    match (extract_condition raw).toOption with
    | some c =>
      if c.onset_date ≠ "" then
        dd m (take10 c.onset_date) (fun b => { b with conditions := b.conditions ++ [c] })
          emptyBucket
      else m
    | none => m
  | .medicationRequest raw =>
    match (extract_medication raw).toOption with
    | some x =>
      if x.authored_on ≠ "" then
        dd m (take10 x.authored_on) (fun b => { b with medications := b.medications ++ [x] })
          emptyBucket
      else m
    | none => m
  | .observation raw =>
    match (extract_observation raw).toOption with
    | some x =>
      if x.effective_date ≠ "" then
        dd m (take10 x.effective_date) (fun b => { b with observations := b.observations ++ [x] })
          emptyBucket
      else m
    | none => m
  | .procedure raw =>
    match (extract_procedure raw).toOption with
    | some x =>
      if x.performed_date ≠ "" then
        dd m (take10 x.performed_date) (fun b => { b with procedures := b.procedures ++ [x] })
          emptyBucket
      else m
    | none => m
  | .immunization raw =>
    match (extract_immunization raw).toOption with
    | some x =>
      if x.occurrence_date ≠ "" then
        dd m (take10 x.occurrence_date)
          (fun b => { b with immunizations := b.immunizations ++ [x] }) emptyBucket
      else m
    | none => m
  | .diagnosticReport raw =>
    match (extract_diagnostic_report raw).toOption with
    | some x =>
      if x.effective_date ≠ "" then
        dd m (take10 x.effective_date)
          (fun b => { b with diagnostic_reports := b.diagnostic_reports ++ [x] }) emptyBucket
      else m
    | none => m
  | _ => m

/-- How one entry updates the pending `encounter_refs` table. -/
def refsStep (m : List (String × RefBucket)) (r : RawResource) :
    List (String × RefBucket) :=
  match r with
  | .condition raw =>
    match (extract_condition raw).toOption with
    | some c =>
      if pyTruthy c.encounter_ref then
        dd m (refSeg c.encounter_ref)
          (fun b => { b with conditions := b.conditions ++ [c.id] }) emptyRefs
      else m
    | none => m
  | .medicationRequest raw =>
    match (extract_medication raw).toOption with
    | some x =>
      if pyTruthy x.encounter_ref then
        dd m (refSeg x.encounter_ref)
          (fun b => { b with medications := b.medications ++ [x.id] }) emptyRefs
      else m
    | none => m
  | .observation raw =>
    match (extract_observation raw).toOption with
    | some x =>
      if pyTruthy x.encounter_ref then
        dd m (refSeg x.encounter_ref)
          (fun b => { b with observations := b.observations ++ [x.id] }) emptyRefs
      else m
    | none => m
  | .procedure raw =>
    match (extract_procedure raw).toOption with
    | some x =>
      if pyTruthy x.encounter_ref then
        dd m (refSeg x.encounter_ref)
          (fun b => { b with procedures := b.procedures ++ [x.id] }) emptyRefs
      else m
    | none => m
  | .immunization raw =>
    match (extract_immunization raw).toOption with
    | some x =>
      if pyTruthy x.encounter_ref then
        dd m (refSeg x.encounter_ref)
          (fun b => { b with immunizations := b.immunizations ++ [x.id] }) emptyRefs
      else m
    | none => m
  | .diagnosticReport raw =>
    match (extract_diagnostic_report raw).toOption with
    | some x =>
      if pyTruthy x.encounter_ref then
        dd m (refSeg x.encounter_ref)
          (fun b => { b with diagnostic_reports := b.diagnostic_reports ++ [x.id] }) emptyRefs
      else m
    | none => m
  | _ => m

/-- Bucket stored at a date key, or the empty bucket. -/
def getBucketD (m : List (String × DateBucket)) (d : String) : DateBucket :=
  (alookup m d).getD emptyBucket

/-- Pending refs stored at an encounter key, or the empty bucket. -/
def getRefsD (m : List (String × RefBucket)) (k : String) : RefBucket :=
  (alookup m k).getD emptyRefs

/-! Per-date filters: the entries of a given kind whose (truthy, except
for encounters) date field truncates to `d`, in bundle order. -/

def encFilter (l : List RawResource) (d : String) : List Encounter :=
  l.filterMap (fun r =>
    match encOf? r with
    | some e => if take10 e.start_date = d then some e else none
    | none => none)

def condFilter (l : List RawResource) (d : String) : List Condition :=
  l.filterMap (fun r =>
    match condOf? r with
    | some c => if c.onset_date ≠ "" ∧ take10 c.onset_date = d then some c else none
    | none => none)

def medFilter (l : List RawResource) (d : String) : List Medication :=
  l.filterMap (fun r =>
    match medOf? r with
    | some x => if x.authored_on ≠ "" ∧ take10 x.authored_on = d then some x else none
    | none => none)

def obsFilter (l : List RawResource) (d : String) : List Observation :=
  l.filterMap (fun r =>
    match obsOf? r with
    | some x => if x.effective_date ≠ "" ∧ take10 x.effective_date = d then some x else none
    | none => none)

def procFilter (l : List RawResource) (d : String) : List Procedure :=
  l.filterMap (fun r =>
    match procOf? r with
    | some x => if x.performed_date ≠ "" ∧ take10 x.performed_date = d then some x else none
    | none => none)

def immFilter (l : List RawResource) (d : String) : List Immunization :=
  l.filterMap (fun r =>
    match immOf? r with
    | some x => if x.occurrence_date ≠ "" ∧ take10 x.occurrence_date = d then some x else none
    | none => none)

def repFilter (l : List RawResource) (d : String) : List DiagnosticReport :=
  l.filterMap (fun r =>
    match repOf? r with
    | some x => if x.effective_date ≠ "" ∧ take10 x.effective_date = d then some x else none
    | none => none)

/-! Per-encounter-key filters: the ids of the entries of a given kind
whose truthy encounter reference trails to `k`, in bundle order. -/

def condRefIds (l : List RawResource) (k : String) : List String :=
  l.filterMap (fun r =>
    match condOf? r with
    | some c =>
      if pyTruthy c.encounter_ref ∧ refSeg c.encounter_ref = k then some c.id else none
    | none => none)

def medRefIds (l : List RawResource) (k : String) : List String :=
  l.filterMap (fun r =>
    match medOf? r with
    | some x =>
      if pyTruthy x.encounter_ref ∧ refSeg x.encounter_ref = k then some x.id else none
    | none => none)

def obsRefIds (l : List RawResource) (k : String) : List String :=
  l.filterMap (fun r =>
    match obsOf? r with
    | some x =>
      if pyTruthy x.encounter_ref ∧ refSeg x.encounter_ref = k then some x.id else none
    | none => none)

def procRefIds (l : List RawResource) (k : String) : List String :=
  l.filterMap (fun r =>
    match procOf? r with
    | some x =>
      if pyTruthy x.encounter_ref ∧ refSeg x.encounter_ref = k then some x.id else none
    | none => none)

def immRefIds (l : List RawResource) (k : String) : List String :=
  l.filterMap (fun r =>
    match immOf? r with
    | some x =>
      if pyTruthy x.encounter_ref ∧ refSeg x.encounter_ref = k then some x.id else none
    | none => none)

def repRefIds (l : List RawResource) (k : String) : List String :=
  l.filterMap (fun r =>
    match repOf? r with
    | some x =>
      if pyTruthy x.encounter_ref ∧ refSeg x.encounter_ref = k then some x.id else none
    | none => none)

/-- Forget an encounter's linkage lists. In the source the bucket lists
and the id-keyed collection alias the same Python objects, so the second
pass also mutates the linkage lists of bucket-resident encounters;
statements about bucket membership are therefore made up to this
erasure, which both readings satisfy. -/
def eraseLinks (e : Encounter) : Encounter :=
  setLists e emptyRefs

/-! ### Uniform kind/entity view (used to state duplicate-id behaviour) -/

/-- The seven non-Patient resource kinds that have an id-keyed collection
and a slot in every date bucket. -/
inductive Kind where
  | encounter
  | condition
  | medication
  | observation
  | procedure
  | immunization
  | diagnosticReport
deriving DecidableEq

/-- Sum of the seven extracted entity types (encounters taken up to
linkage-list erasure, see `eraseLinks`). -/
inductive Entity where
  | enc (e : Encounter)
  | cond (c : Condition)
  | med (m : Medication)
  | obs (o : Observation)
  | proc (p : Procedure)
  | imm (i : Immunization)
  | rep (d : DiagnosticReport)
deriving DecidableEq

def kindOf? : RawResource → Option Kind
  | .encounter _ => some .encounter
  | .condition _ => some .condition
  | .medicationRequest _ => some .medication
  | .observation _ => some .observation
  | .procedure _ => some .procedure
  | .immunization _ => some .immunization
  | .diagnosticReport _ => some .diagnosticReport
  | _ => none

def entityOf? : RawResource → Option Entity
  | .encounter raw => (extract_encounter raw).toOption.map (fun e => .enc (eraseLinks e))
  | .condition raw => (extract_condition raw).toOption.map .cond
  | .medicationRequest raw => (extract_medication raw).toOption.map .med
  | .observation raw => (extract_observation raw).toOption.map .obs
  | .procedure raw => (extract_procedure raw).toOption.map .proc
  | .immunization raw => (extract_immunization raw).toOption.map .imm
  | .diagnosticReport raw => (extract_diagnostic_report raw).toOption.map .rep
  | _ => none

def Entity.idOf : Entity → String
  | .enc e => e.id
  | .cond c => c.id
  | .med m => m.id
  | .obs o => o.id
  | .proc p => p.id
  | .imm i => i.id
  | .rep d => d.id

/-- The relevant date field of each kind (the one the temporal indexer
uses). -/
def Entity.dateOf : Entity → String
  | .enc e => e.start_date
  | .cond c => c.onset_date
  | .med m => m.authored_on
  | .obs o => o.effective_date
  | .proc p => p.performed_date
  | .imm i => i.occurrence_date
  | .rep d => d.effective_date

/-- Lookup in the final record's collection of a given kind (encounters
up to linkage-list erasure). -/
def recLookup (rec : PatientRecord) : Kind → String → Option Entity
  | .encounter, x => (alookup rec.encounters x).map (fun e => .enc (eraseLinks e))
  | .condition, x => (alookup rec.conditions x).map .cond
  | .medication, x => (alookup rec.medications x).map .med
  | .observation, x => (alookup rec.observations x).map .obs
  | .procedure, x => (alookup rec.procedures x).map .proc
  | .immunization, x => (alookup rec.immunizations x).map .imm
  | .diagnosticReport, x => (alookup rec.diagnostic_reports x).map .rep

/-- The per-kind list of a date bucket (encounters up to linkage-list
erasure). -/
def bucketEntities (b : DateBucket) : Kind → List Entity
  | .encounter => b.encounters.map (fun e => .enc (eraseLinks e))
  | .condition => b.conditions.map .cond
  | .medication => b.medications.map .med
  | .observation => b.observations.map .obs
  | .procedure => b.procedures.map .proc
  | .immunization => b.immunizations.map .imm
  | .diagnosticReport => b.diagnostic_reports.map .rep

/-! ### Boolean readings of the claims under test (for counterexamples) -/

/-- Trailing identifier segment of an encounter reference, when one is
stored (the claims' "encounter_ref's trailing identifier segment"). -/
def refTrail (o : Option String) : Option String :=
  o.map lastSegment

/-- Conditions instance of C1's first conjunct: every condition whose
`encounter_ref` trails to a stored encounter's id is listed in that
encounter's `conditions` list. The full claim quantifies over all six
linked kinds, so it implies this reading. -/
def c1LinkedCheck (rec : PatientRecord) : Bool :=
  rec.encounters.all (fun ke =>
    (valuesOf rec.conditions).all (fun c =>
      !(refTrail c.encounter_ref = some ke.2.id) || ke.2.conditions.contains c.id))

/-- Conditions instance of C1's second conjunct: a condition whose
`encounter_ref` trails to an id absent from the encounter collection
appears in no encounter's `conditions` list. Again implied by the full
claim. -/
def c1OrphanCheck (rec : PatientRecord) : Bool :=
  (valuesOf rec.conditions).all (fun c =>
    match refTrail c.encounter_ref with
    | some t =>
      if rec.encounters.all (fun ke => ke.1 ≠ t) then
        rec.encounters.all (fun ke => !ke.2.conditions.contains c.id)
      else true
    | none => true)

/-- Encounters instance of C2's "no date, no bucket" conjunct: no bucket
of the date index contains an encounter whose `start_date` is empty.
Implied by the claim. -/
def c2UndatedCheck (rec : PatientRecord) : Bool :=
  rec.events_by_date.all (fun db => db.2.encounters.all (fun e => e.start_date ≠ ""))

/-- Conditions instance of C2's "exactly" conjunct: every stored
condition is present in the bucket of its truncated onset date. Implied
by the claim whenever that bucket's key is present in the index. -/
def c2IndexedCheck (rec : PatientRecord) : Bool :=
  (valuesOf rec.conditions).all (fun c =>
    (get_events_for_date rec c.onset_date).conditions.contains c)

/-! ### Concrete bundles for counterexamples and witnesses -/

/-- Encounter resource with a period start and nothing else. -/
def rawEncP (i : Option String) (start : Option String) : RawEncounter :=
  { id := i, type_ := none, class_ := none
    period := some { start := start, end_ := none }
    reasonCode := none, serviceProvider := none }

/-- Encounter resource with no fields at all. -/
def rawEncBare (i : Option String) : RawEncounter :=
  { id := i, type_ := none, class_ := none, period := none
    reasonCode := none, serviceProvider := none }

/-- Condition resource with just id, reference and onset. -/
def rawCondOf (i ref onset : Option String) : RawCondition :=
  { id := i, code := none, clinicalStatus := none, onsetDateTime := onset
    abatementDateTime := none, encounter := ref.map (fun s => ⟨some s⟩) }

def cx1Bundle : List RawResource :=
  [ .encounter (rawEncBare none)
  , .encounter (rawEncP (some "e1") (some "2020-05-01T10:00:00Z"))
  , .condition (rawCondOf (some "c1") none none)
  , .condition (rawCondOf (some "c2") (some "Encounter/e1") (some "2020-05-01T10:00:00Z"))
  , .condition (rawCondOf (some "c2") (some "Encounter/e99") (some "2021-06-02T10:00:00Z")) ]

def cx1Rec : PatientRecord :=
  (extract_patient_record cx1Bundle).toOption.getD initRecord

def cx2Bundle : List RawResource :=
  [ .encounter (rawEncBare (some "e0"))
  , .condition (rawCondOf (some "c1") none none) ]

def cx2Rec : PatientRecord :=
  (extract_patient_record cx2Bundle).toOption.getD initRecord

def c1wBundle : List RawResource :=
  [ .encounter (rawEncP (some "e1") (some "2020-05-01T10:00:00Z"))
  , .condition (rawCondOf (some "c2") (some "Encounter/e1") (some "2020-05-01T10:00:00Z")) ]

def c1wRec : PatientRecord :=
  (extract_patient_record c1wBundle).toOption.getD initRecord

def c2wBundle : List RawResource :=
  [ .encounter (rawEncP (some "e1") (some "2020-05-01T10:00:00Z"))
  , .condition (rawCondOf (some "c3") (some "Encounter/e1") (some "2020-05-01T09:00:00Z")) ]

def c2wRec : PatientRecord :=
  (extract_patient_record c2wBundle).toOption.getD initRecord

def c4wBundle : List RawResource :=
  [ .condition (rawCondOf (some "c1") none none) ]

def c4wRec : PatientRecord :=
  (extract_patient_record c4wBundle).toOption.getD initRecord

def c9wBundle : List RawResource :=
  [ .condition (rawCondOf (some "c") none (some "2020-01-01T08:00:00Z"))
  , .condition (rawCondOf (some "c") none (some "2021-02-02T08:00:00Z")) ]

def c9wRec : PatientRecord :=
  (extract_patient_record c9wBundle).toOption.getD initRecord

def c9wEnt1 : Entity :=
  .cond ((extract_condition (rawCondOf (some "c") none (some "2020-01-01T08:00:00Z"))).toOption.getD
    ⟨"", "", "", "", "", none, none⟩)

def c9wEnt2 : Entity :=
  .cond ((extract_condition (rawCondOf (some "c") none (some "2021-02-02T08:00:00Z"))).toOption.getD
    ⟨"", "", "", "", "", none, none⟩)

def c3wRec : PatientRecord :=
  { initRecord with events_by_date :=
      [("2020-05-01", { emptyBucket with conditions := [⟨"c9", "", "", "", "2020-05-01", none, none⟩] })] }

def c5cxRaw : RawDiagnosticReport :=
  { id := some "d1", code := none
    presentedForm := some [⟨some "A"⟩, ⟨some "A"⟩]
    effectiveDateTime := none, effectivePeriod := none, conclusion := none, encounter := none }

def c5wRaw : RawDiagnosticReport :=
  { id := some "d2", code := none
    presentedForm := some [⟨some "QQ=="⟩, ⟨some "A"⟩]
    effectiveDateTime := none, effectivePeriod := none, conclusion := none, encounter := none }

def blankReport : DiagnosticReport := ⟨"", "", "", "", "", "", none⟩

def c5wRep : DiagnosticReport :=
  (extract_diagnostic_report c5wRaw).toOption.getD blankReport

def c8wPatient : Patient := ⟨"p1", "", "1980-01-01", "", "", "", "", "", ""⟩

/-! Blank raw resources (every optional key absent) for the C6 witness. -/

def blankRawPatient : RawPatient := ⟨none, none, none, none, none, none, none, none⟩

def blankRawCondition : RawCondition := ⟨none, none, none, none, none, none⟩

def blankRawMedication : RawMedication := ⟨none, none, none, none, none, none, none⟩

def blankRawObservation : RawObservation := ⟨none, none, none, none, none, none, none, none⟩

def blankRawProcedure : RawProcedure := ⟨none, none, none, none, none, none, none⟩

def blankRawImmunization : RawImmunization := ⟨none, none, none, none, none, none⟩

def blankRawReport : RawDiagnosticReport := ⟨none, none, none, none, none, none, none⟩

def blankRawEncounter : RawEncounter := ⟨none, none, none, none, none, none⟩

/-- Safety condition under which `_extract_patient` cannot hit the
`[0]` of an empty present list. -/
def patientOkB (r : RawPatient) : Bool :=
  decide (r.name ≠ some []) && decide (r.address ≠ some [])

/-- A present codeable concept must not carry a present-but-empty
`coding` list (else `[{}][0]` becomes `[][0]`). -/
def codingOkB : Option RawCodeable → Bool
  | some cc => decide (cc.coding ≠ some [])
  | none => true

def conditionOkB (r : RawCondition) : Bool :=
  codingOkB r.code && codingOkB r.clinicalStatus

def medicationOkB (r : RawMedication) : Bool :=
  codingOkB r.medicationCodeableConcept

def observationOkB (r : RawObservation) : Bool :=
  codingOkB r.code &&
    (match r.category with
     | some (c :: _) => decide (c.coding ≠ some [])
     | _ => true)

def procedureOkB (r : RawProcedure) : Bool :=
  codingOkB r.code

def immunizationOkB (r : RawImmunization) : Bool :=
  codingOkB r.vaccineCode

def reportOkB (r : RawDiagnosticReport) : Bool :=
  codingOkB r.code

def encounterOkB (r : RawEncounter) : Bool :=
  (match r.type_ with
   | some (t :: _) => decide (t.coding ≠ some [])
   | _ => true) &&
  (match r.reasonCode with
   | some (rc :: _) => decide (rc.coding ≠ some [])
   | _ => true)

/-- Boolean success test on `Except`. -/
def isOkE : Except String α → Bool
  | .ok _ => true
  | .error _ => false

/-- Concatenation of a list of strings. -/
def concatAll : List String → String
  | [] => ""
  | s :: t => s ++ concatAll t

def blankEncounter : Encounter :=
  ⟨"", "", "", "", "", "", none, "", "", "", [], [], [], [], [], []⟩

/-- The encounter stored under "e1" in the C1 witness record. -/
def c1wEnc : Encounter :=
  (alookup c1wRec.encounters "e1").getD blankEncounter

instance {ε α : Type _} [DecidableEq ε] [DecidableEq α] : DecidableEq (Except ε α) := fun x y =>
  match x, y with
  | .ok a, .ok b =>
    if h : a = b then isTrue (by rw [h])
    else isFalse (by intro hh; injection hh; contradiction)
  | .error a, .error b =>
    if h : a = b then isTrue (by rw [h])
    else isFalse (by intro hh; injection hh; contradiction)
  | .ok _, .error _ => isFalse (by intro hh; cases hh)
  | .error _, .ok _ => isFalse (by intro hh; cases hh)

/-! ### Per-extractor default-value contracts (claim C6)

Each proposition says: on a raw record whose present list-valued fields
are non-empty (the `...OkB` guard), the extractor succeeds, and every
field read from an absent key gets its documented default. -/

def PatientDefaults : Prop :=
  ∀ r : RawPatient, patientOkB r = true →
    ∃ p, extract_patient r = .ok p ∧
      (r.id = none → p.id = "") ∧
      (r.name = none → p.name = "") ∧
      (r.birthDate = none → p.birth_date = "") ∧
      (r.gender = none → p.gender = "") ∧
      (r.maritalStatus = none → p.marital_status = "") ∧
      (r.telecom = none → p.phone = "") ∧
      (r.extension = none → p.race = "" ∧ p.ethnicity = "") ∧
      (r.address = none → p.address = "")

def ConditionDefaults : Prop :=
  ∀ r : RawCondition, conditionOkB r = true →
    ∃ c, extract_condition r = .ok c ∧
      (r.id = none → c.id = "") ∧
      (r.code = none → c.code = "" ∧ c.display = "") ∧
      (r.clinicalStatus = none → c.clinical_status = "") ∧
      (r.onsetDateTime = none → c.onset_date = "") ∧
      (r.abatementDateTime = none → c.abatement_date = none) ∧
      (r.encounter = none → c.encounter_ref = some "")

def MedicationDefaults : Prop :=
  ∀ r : RawMedication, medicationOkB r = true →
    ∃ m, extract_medication r = .ok m ∧
      (r.id = none → m.id = "") ∧
      (r.medicationCodeableConcept = none → m.code = "" ∧ m.display = "") ∧
      (r.status = none → m.status = "") ∧
      (r.authoredOn = none → m.authored_on = "") ∧
      (r.dosageInstruction = none → m.dosage_text = "") ∧
      (r.reasonReference = none → m.reason_display = "" ∧ m.reason_code = "") ∧
      (r.encounter = none → m.encounter_ref = some "")

def ObservationDefaults : Prop :=
  ∀ r : RawObservation, observationOkB r = true →
    ∃ o, extract_observation r = .ok o ∧
      (r.id = none → o.id = "") ∧
      (r.code = none → o.code = "" ∧ o.display = "") ∧
      (r.valueQuantity = none → r.valueCodeableConcept = none → r.valueString = none →
        o.value = ObsValue.vnone ∧ o.unit = "") ∧
      (r.effectiveDateTime = none → o.effective_date = "") ∧
      (r.category = none → o.category = "") ∧
      (r.encounter = none → o.encounter_ref = some "")

def ProcedureDefaults : Prop :=
  ∀ r : RawProcedure, procedureOkB r = true →
    ∃ p, extract_procedure r = .ok p ∧
      (r.id = none → p.id = "") ∧
      (r.code = none → p.code = "" ∧ p.display = "") ∧
      (r.performedDateTime = none → r.performedPeriod = none → p.performed_date = "") ∧
      (r.status = none → p.status = "") ∧
      (r.reasonReference = none → p.reason_display = "" ∧ p.reason_code = "") ∧
      (r.encounter = none → p.encounter_ref = some "")

def ImmunizationDefaults : Prop :=
  ∀ r : RawImmunization, immunizationOkB r = true →
    ∃ im, extract_immunization r = .ok im ∧
      (r.id = none → im.id = "") ∧
      (r.vaccineCode = none → im.vaccine_code = "" ∧ im.vaccine_display = "") ∧
      (r.occurrenceDateTime = none → im.occurrence_date = "") ∧
      (r.status = none → im.status = "") ∧
      (r.protocolApplied = none → im.dose_number = none ∧ im.series = none) ∧
      (r.encounter = none → im.encounter_ref = some "")

def ReportDefaults : Prop :=
  ∀ r : RawDiagnosticReport, reportOkB r = true →
    ∃ dr, extract_diagnostic_report r = .ok dr ∧
      (r.id = none → dr.id = "") ∧
      (r.code = none → dr.code = "" ∧ dr.display = "") ∧
      (r.presentedForm = none → dr.presented_form = "") ∧
      (r.effectiveDateTime = none → r.effectivePeriod = none → dr.effective_date = "") ∧
      (r.conclusion = none → dr.conclusion = "") ∧
      (r.encounter = none → dr.encounter_ref = some "")

def EncounterDefaults : Prop :=
  ∀ r : RawEncounter, encounterOkB r = true →
    ∃ e, extract_encounter r = .ok e ∧
      (r.id = none → e.id = "") ∧
      (r.type_ = none → e.type_code = "" ∧ e.type_display = "General Encounter") ∧
      (r.class_ = none → e.class_code = "" ∧ e.class_display = "ambulatory") ∧
      (r.period = none → e.start_date = "" ∧ e.end_date = none) ∧
      (r.reasonCode = none → e.reason_code = "" ∧ e.reason_display = "Routine follow-up") ∧
      (r.serviceProvider = none → e.service_provider = "")

/-! ## Lemmas about the dictionary model -/

theorem alookup_aset_self (m : List (String × α)) (k : String) (v : α) :
    alookup (aset m k v) k = some v := by
  induction m with
  | nil => simp [aset, alookup]
  | cons h t ih =>
    obtain ⟨k', v'⟩ := h
    by_cases hk : k' = k
    · subst hk; simp [aset, alookup]
    · simp [aset, alookup, hk, ih]

theorem alookup_aset_ne (m : List (String × α)) (k k' : String) (v : α) (h : k ≠ k') :
    alookup (aset m k v) k' = alookup m k' := by
  induction m with
  | nil => simp [aset, alookup, h]
  | cons hd t ih =>
    obtain ⟨k0, v0⟩ := hd
    by_cases hk : k0 = k
    · subst hk; simp [aset, alookup, h]
    · simp [aset, alookup, hk, ih]

theorem alookup_dd_self (m : List (String × α)) (k : String) (f : α → α) (dflt : α) :
    alookup (dd m k f dflt) k = some (f ((alookup m k).getD dflt)) := by
  induction m with
  | nil => simp [dd, alookup]
  | cons hd t ih =>
    obtain ⟨k0, v0⟩ := hd
    by_cases hk : k0 = k
    · subst hk; simp [dd, alookup]
    · simp [dd, alookup, hk, ih]

theorem alookup_dd_ne (m : List (String × α)) (k k' : String) (f : α → α) (dflt : α)
    (h : k ≠ k') : alookup (dd m k f dflt) k' = alookup m k' := by
  induction m with
  | nil => simp [dd, alookup, h]
  | cons hd t ih =>
    obtain ⟨k0, v0⟩ := hd
    by_cases hk : k0 = k
    · subst hk; simp [dd, alookup, h]
    · simp [dd, alookup, hk, ih]

theorem mem_keysOf_dd (m : List (String × α)) (k : String) (f : α → α) (dflt : α) (x : String)
    (h : x ∈ keysOf (dd m k f dflt)) : x ∈ keysOf m ∨ x = k := by
  induction m with
  | nil => simp [dd, keysOf] at h; simp [h]
  | cons hd t ih =>
    obtain ⟨k0, v0⟩ := hd
    by_cases hk : k0 = k
    · subst hk; simp [dd, keysOf] at h ⊢; tauto
    · simp [dd, keysOf, hk] at h
      rcases h with h | h
      · simp [keysOf, h]
      · rcases ih (by simpa [keysOf] using h) with h' | h'
        · simp [keysOf] at h' ⊢; tauto
        · simp [h']

theorem nodup_keysOf_dd (m : List (String × α)) (k : String) (f : α → α) (dflt : α)
    (h : (keysOf m).Nodup) : (keysOf (dd m k f dflt)).Nodup := by
  induction m with
  | nil => simp [dd, keysOf]
  | cons hd t ih =>
    obtain ⟨k0, v0⟩ := hd
    have hsplit := List.nodup_cons.mp (show (k0 :: keysOf t).Nodup by simpa [keysOf] using h)
    by_cases hk : k0 = k
    · subst hk
      simpa [dd, keysOf] using h
    · have hout : keysOf (dd ((k0, v0) :: t) k f dflt) = k0 :: keysOf (dd t k f dflt) := by
        simp [dd, hk, keysOf]
      rw [hout]
      refine List.nodup_cons.mpr ⟨?_, ih hsplit.2⟩
      intro hmem
      rcases mem_keysOf_dd t k f dflt k0 hmem with h' | h'
      · exact hsplit.1 h'
      · exact hk h'

theorem alookup_eq_none (m : List (String × α)) (x : String) (h : x ∉ keysOf m) :
    alookup m x = none := by
  induction m with
  | nil => simp [alookup]
  | cons hd t ih =>
    obtain ⟨k0, v0⟩ := hd
    by_cases hk : k0 = x
    · exact absurd (by simp [keysOf, hk]) h
    · have hx : x ∉ keysOf t := by
        intro hmem
        exact h (by simp [keysOf] at hmem ⊢; tauto)
      simp [alookup, hk, ih hx]

theorem mem_valuesOf_aset (m : List (String × α)) (k : String) (x v : α)
    (h : v ∈ valuesOf (aset m k x)) : v = x ∨ v ∈ valuesOf m := by
  induction m with
  | nil => simp [aset, valuesOf] at h; simp [h]
  | cons hd t ih =>
    obtain ⟨k0, v0⟩ := hd
    by_cases hk : k0 = k
    · subst hk; simp [aset, valuesOf] at h ⊢; tauto
    · simp [aset, valuesOf, hk] at h
      rcases h with h | h
      · simp [valuesOf, h]
      · rcases ih (by simpa [valuesOf] using h) with h' | h'
        · simp [h']
        · simp [valuesOf] at h' ⊢; tauto

/-! ## The walk agrees with its totalisation on success -/

theorem processEntryT_ok (st st' : ExtState) (r : RawResource)
    (h : processEntry st r = .ok st') : processEntryT st r = st' := by
  simp [processEntryT, h]

theorem foldE_ok_eq (l : List RawResource) :
    ∀ st st', foldE st l = .ok st' → st' = foldT st l := by
  induction l with
  | nil =>
    intro st st' h
    simp [foldE] at h
    simp [foldT, h]
  | cons r t ih =>
    intro st st' h
    simp only [foldE] at h
    cases hp : processEntry st r with
    | error e => rw [hp] at h; simp [Except.bind, Bind.bind] at h
    | ok st1 =>
      rw [hp] at h
      have h' : foldE st1 t = .ok st' := by simpa [Except.bind, Bind.bind] using h
      calc st' = foldT st1 t := ih st1 st' h'
      _ = foldT st (r :: t) := by
          simp [foldT, List.foldl_cons, processEntryT_ok st st1 r hp]

/-- One entry updates every component of the walker state independently:
`processEntryT` is exactly the parallel application of the componentwise
step functions. -/
theorem processEntryT_eq (st : ExtState) (r : RawResource) :
    processEntryT st r =
      { record :=
          { patient := patStep st.record.patient r
            conditions := dictStep Condition.id condOf? st.record.conditions r
            medications := dictStep Medication.id medOf? st.record.medications r
            observations := dictStep Observation.id obsOf? st.record.observations r
            procedures := dictStep Procedure.id procOf? st.record.procedures r
            encounters := dictStep Encounter.id encOf? st.record.encounters r
            immunizations := dictStep Immunization.id immOf? st.record.immunizations r
            diagnostic_reports :=
              dictStep DiagnosticReport.id repOf? st.record.diagnostic_reports r
            events_by_date := eventsStep st.record.events_by_date r }
        refs := refsStep st.refs r } := by
  cases r with
  | patient raw =>
    cases h : extract_patient raw <;>
      simp [processEntryT, processEntry, h, patStep, patOf?, dictStep, condOf?, medOf?,
        obsOf?, procOf?, encOf?, immOf?, repOf?, eventsStep, refsStep, Except.toOption,
        Bind.bind, Except.bind, pure, Except.pure]
  | encounter raw =>
    cases h : extract_encounter raw <;>
      simp [processEntryT, processEntry, h, patStep, patOf?, dictStep, condOf?, medOf?,
        obsOf?, procOf?, encOf?, immOf?, repOf?, eventsStep, refsStep, Except.toOption,
        Bind.bind, Except.bind, pure, Except.pure]
  | condition raw =>
    cases h : extract_condition raw <;>
      simp [processEntryT, processEntry, h, patStep, patOf?, dictStep, condOf?, medOf?,
        obsOf?, procOf?, encOf?, immOf?, repOf?, eventsStep, refsStep, Except.toOption,
        Bind.bind, Except.bind, pure, Except.pure] <;>
      split <;> simp_all
  | medicationRequest raw =>
    cases h : extract_medication raw <;>
      simp [processEntryT, processEntry, h, patStep, patOf?, dictStep, condOf?, medOf?,
        obsOf?, procOf?, encOf?, immOf?, repOf?, eventsStep, refsStep, Except.toOption,
        Bind.bind, Except.bind, pure, Except.pure] <;>
      split <;> simp_all
  | observation raw =>
    cases h : extract_observation raw <;>
      simp [processEntryT, processEntry, h, patStep, patOf?, dictStep, condOf?, medOf?,
        obsOf?, procOf?, encOf?, immOf?, repOf?, eventsStep, refsStep, Except.toOption,
        Bind.bind, Except.bind, pure, Except.pure] <;>
      split <;> simp_all
  | procedure raw =>
    cases h : extract_procedure raw <;>
      simp [processEntryT, processEntry, h, patStep, patOf?, dictStep, condOf?, medOf?,
        obsOf?, procOf?, encOf?, immOf?, repOf?, eventsStep, refsStep, Except.toOption,
        Bind.bind, Except.bind, pure, Except.pure] <;>
      split <;> simp_all
  | immunization raw =>
    cases h : extract_immunization raw <;>
      simp [processEntryT, processEntry, h, patStep, patOf?, dictStep, condOf?, medOf?,
        obsOf?, procOf?, encOf?, immOf?, repOf?, eventsStep, refsStep, Except.toOption,
        Bind.bind, Except.bind, pure, Except.pure] <;>
      split <;> simp_all
  | diagnosticReport raw =>
    cases h : extract_diagnostic_report raw <;>
      simp [processEntryT, processEntry, h, patStep, patOf?, dictStep, condOf?, medOf?,
        obsOf?, procOf?, encOf?, immOf?, repOf?, eventsStep, refsStep, Except.toOption,
        Bind.bind, Except.bind, pure, Except.pure] <;>
      split <;> simp_all
  | other =>
    simp [processEntryT, processEntry, patStep, patOf?, dictStep, condOf?, medOf?,
      obsOf?, procOf?, encOf?, immOf?, repOf?, eventsStep, refsStep, pure, Except.pure]

/-- A component with a commuting per-entry step is computed by its own
fold over the entries. -/
theorem foldT_proj {β : Type _} (f : ExtState → β) (step : β → RawResource → β)
    (hstep : ∀ st r, f (processEntryT st r) = step (f st) r) :
    ∀ (l : List RawResource) (st : ExtState), f (foldT st l) = l.foldl step (f st) := by
  intro l
  induction l with
  | nil => intro st; simp [foldT]
  | cons r t ih =>
    intro st
    simp only [foldT, List.foldl_cons]
    have h2 := ih (processEntryT st r)
    simp only [foldT] at h2
    rw [h2, hstep]

theorem foldT_patient (l : List RawResource) (st : ExtState) :
    (foldT st l).record.patient = l.foldl patStep st.record.patient :=
  foldT_proj (fun s => s.record.patient) patStep
    (fun st r => by rw [processEntryT_eq]) l st

theorem foldT_conditions (l : List RawResource) (st : ExtState) :
    (foldT st l).record.conditions =
      l.foldl (dictStep Condition.id condOf?) st.record.conditions :=
  foldT_proj (fun s => s.record.conditions) (dictStep Condition.id condOf?)
    (fun st r => by rw [processEntryT_eq]) l st

theorem foldT_medications (l : List RawResource) (st : ExtState) :
    (foldT st l).record.medications =
      l.foldl (dictStep Medication.id medOf?) st.record.medications :=
  foldT_proj (fun s => s.record.medications) (dictStep Medication.id medOf?)
    (fun st r => by rw [processEntryT_eq]) l st

theorem foldT_observations (l : List RawResource) (st : ExtState) :
    (foldT st l).record.observations =
      l.foldl (dictStep Observation.id obsOf?) st.record.observations :=
  foldT_proj (fun s => s.record.observations) (dictStep Observation.id obsOf?)
    (fun st r => by rw [processEntryT_eq]) l st

theorem foldT_procedures (l : List RawResource) (st : ExtState) :
    (foldT st l).record.procedures =
      l.foldl (dictStep Procedure.id procOf?) st.record.procedures :=
  foldT_proj (fun s => s.record.procedures) (dictStep Procedure.id procOf?)
    (fun st r => by rw [processEntryT_eq]) l st

theorem foldT_encounters (l : List RawResource) (st : ExtState) :
    (foldT st l).record.encounters =
      l.foldl (dictStep Encounter.id encOf?) st.record.encounters :=
  foldT_proj (fun s => s.record.encounters) (dictStep Encounter.id encOf?)
    (fun st r => by rw [processEntryT_eq]) l st

theorem foldT_immunizations (l : List RawResource) (st : ExtState) :
    (foldT st l).record.immunizations =
      l.foldl (dictStep Immunization.id immOf?) st.record.immunizations :=
  foldT_proj (fun s => s.record.immunizations) (dictStep Immunization.id immOf?)
    (fun st r => by rw [processEntryT_eq]) l st

theorem foldT_reports (l : List RawResource) (st : ExtState) :
    (foldT st l).record.diagnostic_reports =
      l.foldl (dictStep DiagnosticReport.id repOf?) st.record.diagnostic_reports :=
  foldT_proj (fun s => s.record.diagnostic_reports) (dictStep DiagnosticReport.id repOf?)
    (fun st r => by rw [processEntryT_eq]) l st

theorem foldT_events (l : List RawResource) (st : ExtState) :
    (foldT st l).record.events_by_date = l.foldl eventsStep st.record.events_by_date :=
  foldT_proj (fun s => s.record.events_by_date) eventsStep
    (fun st r => by rw [processEntryT_eq]) l st

theorem foldT_refs (l : List RawResource) (st : ExtState) :
    (foldT st l).refs = l.foldl refsStep st.refs :=
  foldT_proj (fun s => s.refs) refsStep
    (fun st r => by rw [processEntryT_eq]) l st

/-! ## Lookup and membership through the per-kind collection folds -/

theorem alookup_foldl_dictStep (idOf : α → String) (of? : RawResource → Option α) :
    ∀ (l : List RawResource) (m : List (String × α)) (x : String),
      alookup (l.foldl (dictStep idOf of?) m) x =
        l.foldl (pickStep idOf of? x) (alookup m x) := by
  intro l
  induction l with
  | nil => intro m x; simp
  | cons r t ih =>
    intro m x
    simp only [List.foldl_cons]
    rw [ih]
    have hstep : alookup (dictStep idOf of? m r) x = pickStep idOf of? x (alookup m x) r := by
      cases hof : of? r with
      | none => simp [dictStep, pickStep, hof]
      | some a =>
        by_cases hx : idOf a = x
        · simp [dictStep, pickStep, hof, hx, alookup_aset_self]
        · simp [dictStep, pickStep, hof, hx, alookup_aset_ne m (idOf a) x a hx]
    rw [hstep]

theorem mem_valuesOf_foldl_dictStep (idOf : α → String) (of? : RawResource → Option α) :
    ∀ (l : List RawResource) (m : List (String × α)) (v : α),
      v ∈ valuesOf (l.foldl (dictStep idOf of?) m) →
        v ∈ valuesOf m ∨ ∃ r ∈ l, of? r = some v := by
  intro l
  induction l with
  | nil => intro m v h; exact Or.inl h
  | cons r t ih =>
    intro m v h
    simp only [List.foldl_cons] at h
    rcases ih (dictStep idOf of? m r) v h with h' | ⟨r', hr', hof⟩
    · cases hof : of? r with
      | none => simp [dictStep, hof] at h'; exact Or.inl h'
      | some a =>
        rcases mem_valuesOf_aset m (idOf a) a v (by simpa [dictStep, hof] using h') with he | hm
        · exact Or.inr ⟨r, List.mem_cons_self r t, by rw [hof, he]⟩
        · exact Or.inl hm
    · exact Or.inr ⟨r', List.mem_cons_of_mem r hr', hof⟩

theorem foldl_pickStep_skip (idOf : α → String) (of? : RawResource → Option α) (x : String) :
    ∀ (l : List RawResource) (acc : Option α),
      (∀ r ∈ l, ∀ a, of? r = some a → idOf a ≠ x) →
      l.foldl (pickStep idOf of? x) acc = acc := by
  intro l
  induction l with
  | nil => intro acc _; rfl
  | cons r t ih =>
    intro acc h
    simp only [List.foldl_cons]
    have hstep : pickStep idOf of? x acc r = acc := by
      cases hof : of? r with
      | none => simp [pickStep, hof]
      | some a => simp [pickStep, hof, h r (List.mem_cons_self r t) a hof]
    rw [hstep]
    exact ih acc (fun r' hr' => h r' (List.mem_cons_of_mem r hr'))

theorem foldl_pickStep_id (idOf : α → String) (of? : RawResource → Option α) (x : String) :
    ∀ (l : List RawResource) (acc : Option α),
      (∀ a, acc = some a → idOf a = x) →
      ∀ b, l.foldl (pickStep idOf of? x) acc = some b → idOf b = x := by
  intro l
  induction l with
  | nil => intro acc hacc b hb; exact hacc b hb
  | cons r t ih =>
    intro acc hacc b hb
    simp only [List.foldl_cons] at hb
    refine ih (pickStep idOf of? x acc r) ?_ b hb
    intro a ha
    cases hof : of? r with
    | none => simp [pickStep, hof] at ha; exact hacc a ha
    | some a' =>
      by_cases hx : idOf a' = x
      · simp [pickStep, hof, hx] at ha; rw [← ha]; exact hx
      · simp [pickStep, hof, hx] at ha; exact hacc a ha

theorem foldl_pickStep_source (idOf : α → String) (of? : RawResource → Option α) (x : String) :
    ∀ (l : List RawResource) (acc : Option α) (b : α),
      l.foldl (pickStep idOf of? x) acc = some b →
      acc = some b ∨ ∃ r ∈ l, of? r = some b := by
  intro l
  induction l with
  | nil => intro acc b h; exact Or.inl h
  | cons r t ih =>
    intro acc b h
    simp only [List.foldl_cons] at h
    rcases ih (pickStep idOf of? x acc r) b h with h' | ⟨r', hr', hof⟩
    · cases hof : of? r with
      | none => simp [pickStep, hof] at h'; exact Or.inl h'
      | some a =>
        by_cases hx : idOf a = x
        · simp [pickStep, hof, hx] at h'
          exact Or.inr ⟨r, List.mem_cons_self r t, by rw [hof, h']⟩
        · simp [pickStep, hof, hx] at h'; exact Or.inl h'
    · exact Or.inr ⟨r', List.mem_cons_of_mem r hr', hof⟩

/-! ## Characterisation of the date index -/

theorem getBucketD_dd_self (m : List (String × DateBucket)) (k : String)
    (f : DateBucket → DateBucket) :
    getBucketD (dd m k f emptyBucket) k = f (getBucketD m k) := by
  simp [getBucketD, alookup_dd_self]

theorem getBucketD_dd_ne (m : List (String × DateBucket)) (k d : String)
    (f : DateBucket → DateBucket) (h : ¬k = d) :
    getBucketD (dd m k f emptyBucket) d = getBucketD m d := by
  simp [getBucketD, alookup_dd_ne m k d f emptyBucket h]

/-- The bucket the walk leaves at key `d` holds the starting bucket's
lists followed, per kind, by the matching entries in bundle order. -/
theorem getBucketD_foldl_eventsStep :
    ∀ (l : List RawResource) (m : List (String × DateBucket)) (d : String),
      getBucketD (l.foldl eventsStep m) d =
        { encounters := (getBucketD m d).encounters ++ encFilter l d
          conditions := (getBucketD m d).conditions ++ condFilter l d
          medications := (getBucketD m d).medications ++ medFilter l d
          observations := (getBucketD m d).observations ++ obsFilter l d
          procedures := (getBucketD m d).procedures ++ procFilter l d
          immunizations := (getBucketD m d).immunizations ++ immFilter l d
          diagnostic_reports := (getBucketD m d).diagnostic_reports ++ repFilter l d } := by
  intro l
  induction l with
  | nil =>
    intro m d
    simp [encFilter, condFilter, medFilter, obsFilter, procFilter, immFilter, repFilter]
  | cons r t ih =>
    intro m d
    simp only [List.foldl_cons]
    rw [ih]
    cases r with
    | patient raw =>
      simp [eventsStep, encFilter, condFilter, medFilter, obsFilter, procFilter, immFilter, repFilter,
        List.filterMap_cons, encOf?, condOf?, medOf?, obsOf?, procOf?, immOf?, repOf?,
        Except.toOption]
    | other =>
      simp [eventsStep, encFilter, condFilter, medFilter, obsFilter, procFilter, immFilter, repFilter,
        List.filterMap_cons, encOf?, condOf?, medOf?, obsOf?, procOf?, immOf?, repOf?,
        Except.toOption]
    | encounter raw =>
      cases h : extract_encounter raw with
      | error e =>
        simp [eventsStep, h, encFilter, condFilter, medFilter, obsFilter, procFilter, immFilter, repFilter,
        List.filterMap_cons, encOf?, condOf?, medOf?, obsOf?, procOf?, immOf?, repOf?,
        Except.toOption]
      | ok e =>
        by_cases hkey : take10 e.start_date = d
        · simp [eventsStep, h, hkey, getBucketD_dd_self, encFilter, condFilter, medFilter, obsFilter, procFilter, immFilter, repFilter,
        List.filterMap_cons, encOf?, condOf?, medOf?, obsOf?, procOf?, immOf?, repOf?,
        Except.toOption, List.append_assoc]
        · simp [eventsStep, h, hkey, getBucketD_dd_ne _ _ _ _ hkey, encFilter, condFilter, medFilter, obsFilter, procFilter, immFilter, repFilter,
        List.filterMap_cons, encOf?, condOf?, medOf?, obsOf?, procOf?, immOf?, repOf?,
        Except.toOption]
    | condition raw =>
      cases h : extract_condition raw with
      | error e =>
        simp [eventsStep, h, encFilter, condFilter, medFilter, obsFilter, procFilter, immFilter, repFilter,
        List.filterMap_cons, encOf?, condOf?, medOf?, obsOf?, procOf?, immOf?, repOf?,
        Except.toOption]
      | ok c =>
        by_cases hd0 : c.onset_date = ""
        · simp [eventsStep, h, hd0, encFilter, condFilter, medFilter, obsFilter, procFilter, immFilter, repFilter,
        List.filterMap_cons, encOf?, condOf?, medOf?, obsOf?, procOf?, immOf?, repOf?,
        Except.toOption]
        · by_cases hkey : take10 c.onset_date = d
          · simp [eventsStep, h, hd0, hkey, getBucketD_dd_self, encFilter, condFilter, medFilter, obsFilter, procFilter, immFilter, repFilter,
        List.filterMap_cons, encOf?, condOf?, medOf?, obsOf?, procOf?, immOf?, repOf?,
        Except.toOption, List.append_assoc]
          · simp [eventsStep, h, hd0, hkey, getBucketD_dd_ne _ _ _ _ hkey, encFilter, condFilter, medFilter, obsFilter, procFilter, immFilter, repFilter,
        List.filterMap_cons, encOf?, condOf?, medOf?, obsOf?, procOf?, immOf?, repOf?,
        Except.toOption]
    | medicationRequest raw =>
      cases h : extract_medication raw with
      | error e =>
        simp [eventsStep, h, encFilter, condFilter, medFilter, obsFilter, procFilter, immFilter, repFilter,
        List.filterMap_cons, encOf?, condOf?, medOf?, obsOf?, procOf?, immOf?, repOf?,
        Except.toOption]
      | ok c =>
        by_cases hd0 : c.authored_on = ""
        · simp [eventsStep, h, hd0, encFilter, condFilter, medFilter, obsFilter, procFilter, immFilter, repFilter,
        List.filterMap_cons, encOf?, condOf?, medOf?, obsOf?, procOf?, immOf?, repOf?,
        Except.toOption]
        · by_cases hkey : take10 c.authored_on = d
          · simp [eventsStep, h, hd0, hkey, getBucketD_dd_self, encFilter, condFilter, medFilter, obsFilter, procFilter, immFilter, repFilter,
        List.filterMap_cons, encOf?, condOf?, medOf?, obsOf?, procOf?, immOf?, repOf?,
        Except.toOption, List.append_assoc]
          · simp [eventsStep, h, hd0, hkey, getBucketD_dd_ne _ _ _ _ hkey, encFilter, condFilter, medFilter, obsFilter, procFilter, immFilter, repFilter,
        List.filterMap_cons, encOf?, condOf?, medOf?, obsOf?, procOf?, immOf?, repOf?,
        Except.toOption]
    | observation raw =>
      cases h : extract_observation raw with
      | error e =>
        simp [eventsStep, h, encFilter, condFilter, medFilter, obsFilter, procFilter, immFilter, repFilter,
        List.filterMap_cons, encOf?, condOf?, medOf?, obsOf?, procOf?, immOf?, repOf?,
        Except.toOption]
      | ok c =>
        by_cases hd0 : c.effective_date = ""
        · simp [eventsStep, h, hd0, encFilter, condFilter, medFilter, obsFilter, procFilter, immFilter, repFilter,
        List.filterMap_cons, encOf?, condOf?, medOf?, obsOf?, procOf?, immOf?, repOf?,
        Except.toOption]
        · by_cases hkey : take10 c.effective_date = d
          · simp [eventsStep, h, hd0, hkey, getBucketD_dd_self, encFilter, condFilter, medFilter, obsFilter, procFilter, immFilter, repFilter,
        List.filterMap_cons, encOf?, condOf?, medOf?, obsOf?, procOf?, immOf?, repOf?,
        Except.toOption, List.append_assoc]
          · simp [eventsStep, h, hd0, hkey, getBucketD_dd_ne _ _ _ _ hkey, encFilter, condFilter, medFilter, obsFilter, procFilter, immFilter, repFilter,
        List.filterMap_cons, encOf?, condOf?, medOf?, obsOf?, procOf?, immOf?, repOf?,
        Except.toOption]
    | procedure raw =>
      cases h : extract_procedure raw with
      | error e =>
        simp [eventsStep, h, encFilter, condFilter, medFilter, obsFilter, procFilter, immFilter, repFilter,
        List.filterMap_cons, encOf?, condOf?, medOf?, obsOf?, procOf?, immOf?, repOf?,
        Except.toOption]
      | ok c =>
        by_cases hd0 : c.performed_date = ""
        · simp [eventsStep, h, hd0, encFilter, condFilter, medFilter, obsFilter, procFilter, immFilter, repFilter,
        List.filterMap_cons, encOf?, condOf?, medOf?, obsOf?, procOf?, immOf?, repOf?,
        Except.toOption]
        · by_cases hkey : take10 c.performed_date = d
          · simp [eventsStep, h, hd0, hkey, getBucketD_dd_self, encFilter, condFilter, medFilter, obsFilter, procFilter, immFilter, repFilter,
        List.filterMap_cons, encOf?, condOf?, medOf?, obsOf?, procOf?, immOf?, repOf?,
        Except.toOption, List.append_assoc]
          · simp [eventsStep, h, hd0, hkey, getBucketD_dd_ne _ _ _ _ hkey, encFilter, condFilter, medFilter, obsFilter, procFilter, immFilter, repFilter,
        List.filterMap_cons, encOf?, condOf?, medOf?, obsOf?, procOf?, immOf?, repOf?,
        Except.toOption]
    | immunization raw =>
      cases h : extract_immunization raw with
      | error e =>
        simp [eventsStep, h, encFilter, condFilter, medFilter, obsFilter, procFilter, immFilter, repFilter,
        List.filterMap_cons, encOf?, condOf?, medOf?, obsOf?, procOf?, immOf?, repOf?,
        Except.toOption]
      | ok c =>
        by_cases hd0 : c.occurrence_date = ""
        · simp [eventsStep, h, hd0, encFilter, condFilter, medFilter, obsFilter, procFilter, immFilter, repFilter,
        List.filterMap_cons, encOf?, condOf?, medOf?, obsOf?, procOf?, immOf?, repOf?,
        Except.toOption]
        · by_cases hkey : take10 c.occurrence_date = d
          · simp [eventsStep, h, hd0, hkey, getBucketD_dd_self, encFilter, condFilter, medFilter, obsFilter, procFilter, immFilter, repFilter,
        List.filterMap_cons, encOf?, condOf?, medOf?, obsOf?, procOf?, immOf?, repOf?,
        Except.toOption, List.append_assoc]
          · simp [eventsStep, h, hd0, hkey, getBucketD_dd_ne _ _ _ _ hkey, encFilter, condFilter, medFilter, obsFilter, procFilter, immFilter, repFilter,
        List.filterMap_cons, encOf?, condOf?, medOf?, obsOf?, procOf?, immOf?, repOf?,
        Except.toOption]
    | diagnosticReport raw =>
      cases h : extract_diagnostic_report raw with
      | error e =>
        simp [eventsStep, h, encFilter, condFilter, medFilter, obsFilter, procFilter, immFilter, repFilter,
        List.filterMap_cons, encOf?, condOf?, medOf?, obsOf?, procOf?, immOf?, repOf?,
        Except.toOption]
      | ok c =>
        by_cases hd0 : c.effective_date = ""
        · simp [eventsStep, h, hd0, encFilter, condFilter, medFilter, obsFilter, procFilter, immFilter, repFilter,
        List.filterMap_cons, encOf?, condOf?, medOf?, obsOf?, procOf?, immOf?, repOf?,
        Except.toOption]
        · by_cases hkey : take10 c.effective_date = d
          · simp [eventsStep, h, hd0, hkey, getBucketD_dd_self, encFilter, condFilter, medFilter, obsFilter, procFilter, immFilter, repFilter,
        List.filterMap_cons, encOf?, condOf?, medOf?, obsOf?, procOf?, immOf?, repOf?,
        Except.toOption, List.append_assoc]
          · simp [eventsStep, h, hd0, hkey, getBucketD_dd_ne _ _ _ _ hkey, encFilter, condFilter, medFilter, obsFilter, procFilter, immFilter, repFilter,
        List.filterMap_cons, encOf?, condOf?, medOf?, obsOf?, procOf?, immOf?, repOf?,
        Except.toOption]

/-! ## Characterisation of the pending linkage table -/

theorem getRefsD_dd_self (m : List (String × RefBucket)) (k : String)
    (f : RefBucket → RefBucket) :
    getRefsD (dd m k f emptyRefs) k = f (getRefsD m k) := by
  simp [getRefsD, alookup_dd_self]

theorem getRefsD_dd_ne (m : List (String × RefBucket)) (k d : String)
    (f : RefBucket → RefBucket) (h : ¬k = d) :
    getRefsD (dd m k f emptyRefs) d = getRefsD m d := by
  simp [getRefsD, alookup_dd_ne m k d f emptyRefs h]

/-- The pending table the walk leaves at key `k` holds the starting
bucket's id lists followed, per kind, by the ids of the entries with a
truthy reference trailing to `k`, in bundle order. -/
theorem getRefsD_foldl_refsStep :
    ∀ (l : List RawResource) (m : List (String × RefBucket)) (k : String),
      getRefsD (l.foldl refsStep m) k =
        { conditions := (getRefsD m k).conditions ++ condRefIds l k
          medications := (getRefsD m k).medications ++ medRefIds l k
          observations := (getRefsD m k).observations ++ obsRefIds l k
          procedures := (getRefsD m k).procedures ++ procRefIds l k
          immunizations := (getRefsD m k).immunizations ++ immRefIds l k
          diagnostic_reports := (getRefsD m k).diagnostic_reports ++ repRefIds l k } := by
  intro l
  induction l with
  | nil =>
    intro m k
    simp [condRefIds, medRefIds, obsRefIds, procRefIds, immRefIds, repRefIds]
  | cons r t ih =>
    intro m k
    simp only [List.foldl_cons]
    rw [ih]
    cases r with
    | patient raw =>
      simp [refsStep, condRefIds, medRefIds, obsRefIds, procRefIds, immRefIds, repRefIds,
        List.filterMap_cons, condOf?, medOf?, obsOf?, procOf?, immOf?, repOf?,
        Except.toOption]
    | encounter raw =>
      simp [refsStep, condRefIds, medRefIds, obsRefIds, procRefIds, immRefIds, repRefIds,
        List.filterMap_cons, condOf?, medOf?, obsOf?, procOf?, immOf?, repOf?,
        Except.toOption]
    | other =>
      simp [refsStep, condRefIds, medRefIds, obsRefIds, procRefIds, immRefIds, repRefIds,
        List.filterMap_cons, condOf?, medOf?, obsOf?, procOf?, immOf?, repOf?,
        Except.toOption]
    | condition raw =>
      cases h : extract_condition raw with
      | error e =>
        simp [refsStep, h, condRefIds, medRefIds, obsRefIds, procRefIds, immRefIds, repRefIds,
        List.filterMap_cons, condOf?, medOf?, obsOf?, procOf?, immOf?, repOf?,
        Except.toOption]
      | ok c =>
        by_cases ht : pyTruthy c.encounter_ref = true
        · by_cases hkey : refSeg c.encounter_ref = k
          · simp [refsStep, h, ht, hkey, getRefsD_dd_self, condRefIds, medRefIds, obsRefIds, procRefIds, immRefIds, repRefIds,
        List.filterMap_cons, condOf?, medOf?, obsOf?, procOf?, immOf?, repOf?,
        Except.toOption, List.append_assoc]
          · simp [refsStep, h, ht, hkey, getRefsD_dd_ne _ _ _ _ hkey, condRefIds, medRefIds, obsRefIds, procRefIds, immRefIds, repRefIds,
        List.filterMap_cons, condOf?, medOf?, obsOf?, procOf?, immOf?, repOf?,
        Except.toOption]
        · simp [refsStep, h, ht, condRefIds, medRefIds, obsRefIds, procRefIds, immRefIds, repRefIds,
        List.filterMap_cons, condOf?, medOf?, obsOf?, procOf?, immOf?, repOf?,
        Except.toOption]
    | medicationRequest raw =>
      cases h : extract_medication raw with
      | error e =>
        simp [refsStep, h, condRefIds, medRefIds, obsRefIds, procRefIds, immRefIds, repRefIds,
        List.filterMap_cons, condOf?, medOf?, obsOf?, procOf?, immOf?, repOf?,
        Except.toOption]
      | ok c =>
        by_cases ht : pyTruthy c.encounter_ref = true
        · by_cases hkey : refSeg c.encounter_ref = k
          · simp [refsStep, h, ht, hkey, getRefsD_dd_self, condRefIds, medRefIds, obsRefIds, procRefIds, immRefIds, repRefIds,
        List.filterMap_cons, condOf?, medOf?, obsOf?, procOf?, immOf?, repOf?,
        Except.toOption, List.append_assoc]
          · simp [refsStep, h, ht, hkey, getRefsD_dd_ne _ _ _ _ hkey, condRefIds, medRefIds, obsRefIds, procRefIds, immRefIds, repRefIds,
        List.filterMap_cons, condOf?, medOf?, obsOf?, procOf?, immOf?, repOf?,
        Except.toOption]
        · simp [refsStep, h, ht, condRefIds, medRefIds, obsRefIds, procRefIds, immRefIds, repRefIds,
        List.filterMap_cons, condOf?, medOf?, obsOf?, procOf?, immOf?, repOf?,
        Except.toOption]
    | observation raw =>
      cases h : extract_observation raw with
      | error e =>
        simp [refsStep, h, condRefIds, medRefIds, obsRefIds, procRefIds, immRefIds, repRefIds,
        List.filterMap_cons, condOf?, medOf?, obsOf?, procOf?, immOf?, repOf?,
        Except.toOption]
      | ok c =>
        by_cases ht : pyTruthy c.encounter_ref = true
        · by_cases hkey : refSeg c.encounter_ref = k
          · simp [refsStep, h, ht, hkey, getRefsD_dd_self, condRefIds, medRefIds, obsRefIds, procRefIds, immRefIds, repRefIds,
        List.filterMap_cons, condOf?, medOf?, obsOf?, procOf?, immOf?, repOf?,
        Except.toOption, List.append_assoc]
          · simp [refsStep, h, ht, hkey, getRefsD_dd_ne _ _ _ _ hkey, condRefIds, medRefIds, obsRefIds, procRefIds, immRefIds, repRefIds,
        List.filterMap_cons, condOf?, medOf?, obsOf?, procOf?, immOf?, repOf?,
        Except.toOption]
        · simp [refsStep, h, ht, condRefIds, medRefIds, obsRefIds, procRefIds, immRefIds, repRefIds,
        List.filterMap_cons, condOf?, medOf?, obsOf?, procOf?, immOf?, repOf?,
        Except.toOption]
    | procedure raw =>
      cases h : extract_procedure raw with
      | error e =>
        simp [refsStep, h, condRefIds, medRefIds, obsRefIds, procRefIds, immRefIds, repRefIds,
        List.filterMap_cons, condOf?, medOf?, obsOf?, procOf?, immOf?, repOf?,
        Except.toOption]
      | ok c =>
        by_cases ht : pyTruthy c.encounter_ref = true
        · by_cases hkey : refSeg c.encounter_ref = k
          · simp [refsStep, h, ht, hkey, getRefsD_dd_self, condRefIds, medRefIds, obsRefIds, procRefIds, immRefIds, repRefIds,
        List.filterMap_cons, condOf?, medOf?, obsOf?, procOf?, immOf?, repOf?,
        Except.toOption, List.append_assoc]
          · simp [refsStep, h, ht, hkey, getRefsD_dd_ne _ _ _ _ hkey, condRefIds, medRefIds, obsRefIds, procRefIds, immRefIds, repRefIds,
        List.filterMap_cons, condOf?, medOf?, obsOf?, procOf?, immOf?, repOf?,
        Except.toOption]
        · simp [refsStep, h, ht, condRefIds, medRefIds, obsRefIds, procRefIds, immRefIds, repRefIds,
        List.filterMap_cons, condOf?, medOf?, obsOf?, procOf?, immOf?, repOf?,
        Except.toOption]
    | immunization raw =>
      cases h : extract_immunization raw with
      | error e =>
        simp [refsStep, h, condRefIds, medRefIds, obsRefIds, procRefIds, immRefIds, repRefIds,
        List.filterMap_cons, condOf?, medOf?, obsOf?, procOf?, immOf?, repOf?,
        Except.toOption]
      | ok c =>
        by_cases ht : pyTruthy c.encounter_ref = true
        · by_cases hkey : refSeg c.encounter_ref = k
          · simp [refsStep, h, ht, hkey, getRefsD_dd_self, condRefIds, medRefIds, obsRefIds, procRefIds, immRefIds, repRefIds,
        List.filterMap_cons, condOf?, medOf?, obsOf?, procOf?, immOf?, repOf?,
        Except.toOption, List.append_assoc]
          · simp [refsStep, h, ht, hkey, getRefsD_dd_ne _ _ _ _ hkey, condRefIds, medRefIds, obsRefIds, procRefIds, immRefIds, repRefIds,
        List.filterMap_cons, condOf?, medOf?, obsOf?, procOf?, immOf?, repOf?,
        Except.toOption]
        · simp [refsStep, h, ht, condRefIds, medRefIds, obsRefIds, procRefIds, immRefIds, repRefIds,
        List.filterMap_cons, condOf?, medOf?, obsOf?, procOf?, immOf?, repOf?,
        Except.toOption]
    | diagnosticReport raw =>
      cases h : extract_diagnostic_report raw with
      | error e =>
        simp [refsStep, h, condRefIds, medRefIds, obsRefIds, procRefIds, immRefIds, repRefIds,
        List.filterMap_cons, condOf?, medOf?, obsOf?, procOf?, immOf?, repOf?,
        Except.toOption]
      | ok c =>
        by_cases ht : pyTruthy c.encounter_ref = true
        · by_cases hkey : refSeg c.encounter_ref = k
          · simp [refsStep, h, ht, hkey, getRefsD_dd_self, condRefIds, medRefIds, obsRefIds, procRefIds, immRefIds, repRefIds,
        List.filterMap_cons, condOf?, medOf?, obsOf?, procOf?, immOf?, repOf?,
        Except.toOption, List.append_assoc]
          · simp [refsStep, h, ht, hkey, getRefsD_dd_ne _ _ _ _ hkey, condRefIds, medRefIds, obsRefIds, procRefIds, immRefIds, repRefIds,
        List.filterMap_cons, condOf?, medOf?, obsOf?, procOf?, immOf?, repOf?,
        Except.toOption]
        · simp [refsStep, h, ht, condRefIds, medRefIds, obsRefIds, procRefIds, immRefIds, repRefIds,
        List.filterMap_cons, condOf?, medOf?, obsOf?, procOf?, immOf?, repOf?,
        Except.toOption]

/-! ## The second pass -/

theorem nodup_keysOf_foldl_refsStep :
    ∀ (l : List RawResource) (m : List (String × RefBucket)),
      (keysOf m).Nodup → (keysOf (l.foldl refsStep m)).Nodup := by
  intro l
  induction l with
  | nil => intro m h; exact h
  | cons r t ih =>
    intro m h
    simp only [List.foldl_cons]
    refine ih (refsStep m r) ?_
    cases r with
    | patient raw => exact h
    | encounter raw => exact h
    | other => exact h
    | condition raw =>
      cases hx : extract_condition raw with
      | error e => simpa [refsStep, hx, Except.toOption] using h
      | ok c =>
        by_cases ht : pyTruthy c.encounter_ref = true
        · simpa [refsStep, hx, ht, Except.toOption] using nodup_keysOf_dd m _ _ _ h
        · simpa [refsStep, hx, ht, Except.toOption] using h
    | medicationRequest raw =>
      cases hx : extract_medication raw with
      | error e => simpa [refsStep, hx, Except.toOption] using h
      | ok c =>
        by_cases ht : pyTruthy c.encounter_ref = true
        · simpa [refsStep, hx, ht, Except.toOption] using nodup_keysOf_dd m _ _ _ h
        · simpa [refsStep, hx, ht, Except.toOption] using h
    | observation raw =>
      cases hx : extract_observation raw with
      | error e => simpa [refsStep, hx, Except.toOption] using h
      | ok c =>
        by_cases ht : pyTruthy c.encounter_ref = true
        · simpa [refsStep, hx, ht, Except.toOption] using nodup_keysOf_dd m _ _ _ h
        · simpa [refsStep, hx, ht, Except.toOption] using h
    | procedure raw =>
      cases hx : extract_procedure raw with
      | error e => simpa [refsStep, hx, Except.toOption] using h
      | ok c =>
        by_cases ht : pyTruthy c.encounter_ref = true
        · simpa [refsStep, hx, ht, Except.toOption] using nodup_keysOf_dd m _ _ _ h
        · simpa [refsStep, hx, ht, Except.toOption] using h
    | immunization raw =>
      cases hx : extract_immunization raw with
      | error e => simpa [refsStep, hx, Except.toOption] using h
      | ok c =>
        by_cases ht : pyTruthy c.encounter_ref = true
        · simpa [refsStep, hx, ht, Except.toOption] using nodup_keysOf_dd m _ _ _ h
        · simpa [refsStep, hx, ht, Except.toOption] using h
    | diagnosticReport raw =>
      cases hx : extract_diagnostic_report raw with
      | error e => simpa [refsStep, hx, Except.toOption] using h
      | ok c =>
        by_cases ht : pyTruthy c.encounter_ref = true
        · simpa [refsStep, hx, ht, Except.toOption] using nodup_keysOf_dd m _ _ _ h
        · simpa [refsStep, hx, ht, Except.toOption] using h

/-- Lookup after the linking pass: an encounter whose key has a pending
bucket gets exactly that bucket's six lists; every other encounter is
untouched. Needs the pending table's keys to be distinct, which the
defaultdict construction guarantees. -/
theorem linkPass_alookup :
    ∀ (refs : List (String × RefBucket)) (encs : List (String × Encounter)) (k : String),
      (keysOf refs).Nodup →
      alookup (linkPass encs refs) k =
        match alookup refs k with
        | some rb => (alookup encs k).map (fun e => setLists e rb)
        | none => alookup encs k := by
  intro refs
  induction refs with
  | nil => intro encs k h; simp [linkPass, alookup]
  | cons hd t ih =>
    intro encs k h
    obtain ⟨k0, rb0⟩ := hd
    have hsplit := List.nodup_cons.mp (show (k0 :: keysOf t).Nodup by simpa [keysOf] using h)
    by_cases hk : k0 = k
    · subst hk
      have htk : alookup t k0 = none := alookup_eq_none t k0 hsplit.1
      cases he : alookup encs k0 with
      | none =>
        simp only [linkPass, he]
        rw [ih encs k0 hsplit.2]
        simp [htk, he, alookup]
      | some e =>
        simp only [linkPass, he]
        rw [ih (aset encs k0 (setLists e rb0)) k0 hsplit.2]
        simp [htk, he, alookup, alookup_aset_self]
    · cases he : alookup encs k0 with
      | none =>
        simp only [linkPass, he]
        rw [ih encs k hsplit.2]
        simp [alookup, hk]
      | some e =>
        simp only [linkPass, he]
        rw [ih (aset encs k0 (setLists e rb0)) k hsplit.2]
        have ha := alookup_aset_ne encs k0 k (setLists e rb0) hk
        simp [alookup, hk, ha]

/-- The linking pass never changes an encounter's non-linkage fields:
lookups agree up to linkage-list erasure, with no key-distinctness
assumption. -/
theorem linkPass_alookup_erase :
    ∀ (refs : List (String × RefBucket)) (encs : List (String × Encounter)) (k : String),
      (alookup (linkPass encs refs) k).map eraseLinks = (alookup encs k).map eraseLinks := by
  intro refs
  induction refs with
  | nil => intro encs k; simp [linkPass]
  | cons hd t ih =>
    intro encs k
    obtain ⟨k0, rb0⟩ := hd
    cases he : alookup encs k0 with
    | none => simp only [linkPass, he]; exact ih encs k
    | some e =>
      simp only [linkPass, he]
      rw [ih (aset encs k0 (setLists e rb0)) k]
      by_cases hk : k0 = k
      · subst hk
        simp [alookup_aset_self, he, eraseLinks, setLists]
      · simp [alookup_aset_ne encs k0 k (setLists e rb0) hk]

/-- A walk over a bundle without Patient entries leaves `patient`
untouched. -/
theorem foldl_patStep_skip :
    ∀ (l : List RawResource) (m : Option Patient),
      (∀ raw, RawResource.patient raw ∉ l) → l.foldl patStep m = m := by
  intro l
  induction l with
  | nil => intro m _; rfl
  | cons r t ih =>
    intro m h
    have hr : patOf? r = none := by
      cases r with
      | patient raw => exact absurd (List.mem_cons_self _ t) (h raw)
      | encounter raw => rfl
      | condition raw => rfl
      | medicationRequest raw => rfl
      | observation raw => rfl
      | procedure raw => rfl
      | immunization raw => rfl
      | diagnosticReport raw => rfl
      | other => rfl
    simp only [List.foldl_cons, patStep, hr]
    exact ih m (fun raw hm => h raw (List.mem_cons_of_mem r hm))

/-- Decomposition of a successful `extract_patient_record` run into the
totalised walk plus the linking pass. -/
theorem extract_ok_eq (entries : List RawResource) (rec : PatientRecord)
    (h : extract_patient_record entries = .ok rec) :
    rec = { (foldT initState entries).record with
            encounters :=
              linkPass (foldT initState entries).record.encounters
                (foldT initState entries).refs } := by
  unfold extract_patient_record at h
  cases hf : foldE initState entries with
  | error e => rw [hf] at h; simp [Bind.bind, Except.bind] at h
  | ok st =>
    rw [hf] at h
    have hst := foldE_ok_eq entries initState st hf
    simp only [Bind.bind, Except.bind, pure, Except.pure] at h
    cases h
    rw [← hst]

/-- A freshly extracted encounter has all six linkage lists empty (they
are only written by the second pass). -/
theorem extract_encounter_shape (raw : RawEncounter) (e : Encounter)
    (h : extract_encounter raw = .ok e) :
    e.conditions = [] ∧ e.medications = [] ∧ e.observations = [] ∧
      e.procedures = [] ∧ e.immunizations = [] ∧ e.diagnostic_reports = [] := by
  unfold extract_encounter at h
  simp only [Bind.bind, Except.bind, pure, Except.pure] at h
  repeat' split at h
  all_goals try exact (Except.noConfusion h)
  all_goals injection h with h2
  all_goals subst h2
  all_goals exact ⟨rfl, rfl, rfl, rfl, rfl, rfl⟩

/-- C1 (amended). After `extract_patient_record` completes, every
encounter stored under key `k` has `id = k` and its six linkage lists
are exactly the ids, in bundle order, of the entries of the matching
kind whose extracted `encounter_ref` is truthy (non-empty) and whose
trailing segment equals `k`. Hence a resource with a truthy reference
trailing to a stored encounter id is linked there, and an id that no
entry references to a stored encounter appears in no encounter's lists.
(The original claim fails for empty references — which trail to `""` and
would have to be linked to an encounter whose id is `""` — and, in its
unknown-reference half, for two same-kind entries sharing an id.) -/
theorem C1_encounter_linking (entries : List RawResource) (rec : PatientRecord)
    (hok : extract_patient_record entries = .ok rec) (k : String) (e : Encounter)
    (hl : alookup rec.encounters k = some e) :
    e.id = k ∧
    e.conditions = condRefIds entries k ∧
    e.medications = medRefIds entries k ∧
    e.observations = obsRefIds entries k ∧
    e.procedures = procRefIds entries k ∧
    e.immunizations = immRefIds entries k ∧
    e.diagnostic_reports = repRefIds entries k := by
  have hrec := extract_ok_eq entries rec hok
  have hencs : rec.encounters =
      linkPass ((foldT initState entries).record.encounters)
        ((foldT initState entries).refs) := by rw [hrec]
  have hEeq : (foldT initState entries).record.encounters =
      entries.foldl (dictStep Encounter.id encOf?) [] := foldT_encounters entries initState
  have hReq : (foldT initState entries).refs = entries.foldl refsStep [] :=
    foldT_refs entries initState
  rw [hencs, hEeq, hReq] at hl
  have hnd : (keysOf (entries.foldl refsStep [])).Nodup :=
    nodup_keysOf_foldl_refsStep entries [] (by simp [keysOf])
  have hlink := linkPass_alookup (entries.foldl refsStep [])
    (entries.foldl (dictStep Encounter.id encOf?) []) k hnd
  have hpick := alookup_foldl_dictStep Encounter.id encOf? entries [] k
  have hchar := getRefsD_foldl_refsStep entries [] k
  have hchar' : getRefsD (entries.foldl refsStep []) k =
      { conditions := condRefIds entries k
        medications := medRefIds entries k
        observations := obsRefIds entries k
        procedures := procRefIds entries k
        immunizations := immRefIds entries k
        diagnostic_reports := repRefIds entries k } := by
    simpa [getRefsD, alookup, emptyRefs] using hchar
  cases hRk : alookup (entries.foldl refsStep []) k with
  | some rb =>
    rw [hRk] at hlink
    rw [hlink] at hl
    obtain ⟨e0, hE0, he⟩ := Option.map_eq_some'.mp hl
    have hid0 : e0.id = k := by
      rw [hpick] at hE0
      exact foldl_pickStep_id Encounter.id encOf? k entries none (by simp) e0 hE0
    have hrb : rb = getRefsD (entries.foldl refsStep []) k := by
      simp [getRefsD, hRk]
    rw [hchar'] at hrb
    subst he
    exact ⟨hid0, by simp [hrb, setLists], by simp [hrb, setLists], by simp [hrb, setLists],
      by simp [hrb, setLists], by simp [hrb, setLists], by simp [hrb, setLists]⟩
  | none =>
    rw [hRk] at hlink
    rw [hlink] at hl
    have hid0 : e.id = k := by
      rw [hpick] at hl
      exact foldl_pickStep_id Encounter.id encOf? k entries none (by simp) e hl
    have hempty : getRefsD (entries.foldl refsStep []) k = emptyRefs := by
      simp [getRefsD, hRk]
    rw [hchar'] at hempty
    have hc : condRefIds entries k = [] := by
      have := congrArg RefBucket.conditions hempty; simpa using this
    have hm : medRefIds entries k = [] := by
      have := congrArg RefBucket.medications hempty; simpa using this
    have hob : obsRefIds entries k = [] := by
      have := congrArg RefBucket.observations hempty; simpa using this
    have hp : procRefIds entries k = [] := by
      have := congrArg RefBucket.procedures hempty; simpa using this
    have him : immRefIds entries k = [] := by
      have := congrArg RefBucket.immunizations hempty; simpa using this
    have hr : repRefIds entries k = [] := by
      have := congrArg RefBucket.diagnostic_reports hempty; simpa using this
    have hsource : ∃ raw2, encOf? raw2 = some e ∧ raw2 ∈ entries := by
      rw [hpick] at hl
      rcases foldl_pickStep_source Encounter.id encOf? k entries none e hl with h0 | ⟨r2, hr2, hof⟩
      · cases h0
      · exact ⟨r2, hof, hr2⟩
    obtain ⟨raw2, hof, _⟩ := hsource
    have hshape : e.conditions = [] ∧ e.medications = [] ∧ e.observations = [] ∧
        e.procedures = [] ∧ e.immunizations = [] ∧ e.diagnostic_reports = [] := by
      cases raw2 with
      | encounter raw3 =>
        cases hx : extract_encounter raw3 with
        | error err => rw [encOf?, hx] at hof; cases hof
        | ok e3 =>
          have : e3 = e := by
            rw [encOf?, hx] at hof
            simpa [Except.toOption] using hof
          exact this ▸ extract_encounter_shape raw3 e3 hx
      | patient raw3 => cases hof
      | condition raw3 => cases hof
      | medicationRequest raw3 => cases hof
      | observation raw3 => cases hof
      | procedure raw3 => cases hof
      | immunization raw3 => cases hof
      | diagnosticReport raw3 => cases hof
      | other => cases hof
    exact ⟨hid0, by rw [hshape.1, hc], by rw [hshape.2.1, hm], by rw [hshape.2.2.1, hob],
      by rw [hshape.2.2.2.1, hp], by rw [hshape.2.2.2.2.1, him], by rw [hshape.2.2.2.2.2, hr]⟩

/-- C1, as stated, is false on the code. In `cx1Bundle` an Encounter
without an id is stored under `""` and a Condition without an
`encounter` key gets `encounter_ref = ""`, whose trailing segment `""`
equals that encounter's id, yet the walker's truthiness guard drops it —
refuting the first conjunct (`c1LinkedCheck`). Two Condition entries
share id "c2"; the stored value references unknown "e99", yet "c2" sits
in encounter "e1"'s list — refuting the second conjunct
(`c1OrphanCheck`). Both checks are direct consequences of the claim, so
their failure refutes it. -/
theorem C1_counterexample :
    isOkE (extract_patient_record cx1Bundle) = true ∧
    c1LinkedCheck cx1Rec = false ∧
    c1OrphanCheck cx1Rec = false := by decide

/-- Witness: the amended C1 applied to a two-entry bundle. -/
theorem C1_witness :
    extract_patient_record c1wBundle = .ok c1wRec ∧
    alookup c1wRec.encounters "e1" = some c1wEnc ∧
    c1wEnc.id = "e1" ∧
    c1wEnc.conditions = condRefIds c1wBundle "e1" :=
  ⟨by decide, by decide,
    (C1_encounter_linking c1wBundle c1wRec (by decide) "e1" c1wEnc (by decide)).1,
    (C1_encounter_linking c1wBundle c1wRec (by decide) "e1" c1wEnc (by decide)).2.1⟩

/-! ## Component equations for a successful extraction -/

theorem rec_patient_eq (entries : List RawResource) (rec : PatientRecord)
    (hok : extract_patient_record entries = .ok rec) :
    rec.patient = entries.foldl patStep none := by
  have hrec := extract_ok_eq entries rec hok
  have h : rec.patient = (foldT initState entries).record.patient := by rw [hrec]
  rw [h, foldT_patient]
  rfl

theorem rec_conditions_eq (entries : List RawResource) (rec : PatientRecord)
    (hok : extract_patient_record entries = .ok rec) :
    rec.conditions = entries.foldl (dictStep Condition.id condOf?) [] := by
  have hrec := extract_ok_eq entries rec hok
  have h : rec.conditions = (foldT initState entries).record.conditions := by rw [hrec]
  rw [h, foldT_conditions]
  rfl

theorem rec_medications_eq (entries : List RawResource) (rec : PatientRecord)
    (hok : extract_patient_record entries = .ok rec) :
    rec.medications = entries.foldl (dictStep Medication.id medOf?) [] := by
  have hrec := extract_ok_eq entries rec hok
  have h : rec.medications = (foldT initState entries).record.medications := by rw [hrec]
  rw [h, foldT_medications]
  rfl

theorem rec_observations_eq (entries : List RawResource) (rec : PatientRecord)
    (hok : extract_patient_record entries = .ok rec) :
    rec.observations = entries.foldl (dictStep Observation.id obsOf?) [] := by
  have hrec := extract_ok_eq entries rec hok
  have h : rec.observations = (foldT initState entries).record.observations := by rw [hrec]
  rw [h, foldT_observations]
  rfl

theorem rec_procedures_eq (entries : List RawResource) (rec : PatientRecord)
    (hok : extract_patient_record entries = .ok rec) :
    rec.procedures = entries.foldl (dictStep Procedure.id procOf?) [] := by
  have hrec := extract_ok_eq entries rec hok
  have h : rec.procedures = (foldT initState entries).record.procedures := by rw [hrec]
  rw [h, foldT_procedures]
  rfl

theorem rec_immunizations_eq (entries : List RawResource) (rec : PatientRecord)
    (hok : extract_patient_record entries = .ok rec) :
    rec.immunizations = entries.foldl (dictStep Immunization.id immOf?) [] := by
  have hrec := extract_ok_eq entries rec hok
  have h : rec.immunizations = (foldT initState entries).record.immunizations := by rw [hrec]
  rw [h, foldT_immunizations]
  rfl

theorem rec_reports_eq (entries : List RawResource) (rec : PatientRecord)
    (hok : extract_patient_record entries = .ok rec) :
    rec.diagnostic_reports = entries.foldl (dictStep DiagnosticReport.id repOf?) [] := by
  have hrec := extract_ok_eq entries rec hok
  have h : rec.diagnostic_reports = (foldT initState entries).record.diagnostic_reports := by
    rw [hrec]
  rw [h, foldT_reports]
  rfl

theorem rec_encounters_eq (entries : List RawResource) (rec : PatientRecord)
    (hok : extract_patient_record entries = .ok rec) :
    rec.encounters =
      linkPass (entries.foldl (dictStep Encounter.id encOf?) []) (entries.foldl refsStep []) := by
  have hrec := extract_ok_eq entries rec hok
  have h : rec.encounters =
      linkPass ((foldT initState entries).record.encounters) ((foldT initState entries).refs) := by
    rw [hrec]
  rw [h, foldT_encounters, foldT_refs]
  rfl

theorem rec_events_eq (entries : List RawResource) (rec : PatientRecord)
    (hok : extract_patient_record entries = .ok rec) :
    rec.events_by_date = entries.foldl eventsStep [] := by
  have hrec := extract_ok_eq entries rec hok
  have h : rec.events_by_date = (foldT initState entries).record.events_by_date := by rw [hrec]
  rw [h, foldT_events]
  rfl

/-- The bucket a successful extraction serves for any query date. -/
theorem bucket_of_extract (entries : List RawResource) (rec : PatientRecord)
    (hok : extract_patient_record entries = .ok rec) (d : String) :
    get_events_for_date rec d =
      { encounters := encFilter entries (take10 d)
        conditions := condFilter entries (take10 d)
        medications := medFilter entries (take10 d)
        observations := obsFilter entries (take10 d)
        procedures := procFilter entries (take10 d)
        immunizations := immFilter entries (take10 d)
        diagnostic_reports := repFilter entries (take10 d) } := by
  have hev := rec_events_eq entries rec hok
  have hchar := getBucketD_foldl_eventsStep entries [] (take10 d)
  have hbd : get_events_for_date rec d = getBucketD (entries.foldl eventsStep []) (take10 d) := by
    rw [get_events_for_date, getBucketD, hev]
  rw [hbd, hchar]
  simp [getBucketD, alookup, emptyBucket]

/-! ## Small string and fold lemmas -/

theorem empty_append_str (s : String) : "" ++ s = s := by
  obtain ⟨l⟩ := s
  rfl

theorem foldl_contrib_concat :
    ∀ (l : List RawAttachment) (s : String),
      l.foldl (fun acc form => acc ++ contribOfForm form) s =
        s ++ concatAll (l.map contribOfForm) := by
  intro l
  induction l with
  | nil =>
    intro s
    simp [concatAll]
  | cons f t ih =>
    intro s
    simp only [List.foldl_cons, List.map_cons, concatAll, ih, String.append_assoc]

theorem takeWhile_append_of (p : Char → Bool) (ds rest : List Char)
    (hall : ∀ c ∈ ds, p c = true) (hstop : p '-' = false) :
    (ds ++ '-' :: rest).takeWhile p = ds := by
  induction ds with
  | nil => simp [List.takeWhile_cons, hstop]
  | cons c t ih =>
    simp only [List.cons_append, List.takeWhile_cons, hall c (List.mem_cons_self c t),
      if_true]
    rw [ih (fun c' hc' => hall c' (List.mem_cons_of_mem c hc'))]

theorem pickStep_hit (idOf : α → String) (of? : RawResource → Option α) (x : String)
    (r : RawResource) (a : α) (ha : of? r = some a) (hid : idOf a = x) :
    ∀ acc, pickStep idOf of? x acc r = some a := by
  intro acc
  simp [pickStep, ha, hid]

/-- Lookup at `x` after the whole walk, when the last entry carrying id
`x` of the relevant kind is `r2`. -/
theorem pick_last (idOf : α → String) (of? : RawResource → Option α) (x : String)
    (pre mid post : List RawResource) (r1 r2 : RawResource) (a2 : α)
    (hof2 : of? r2 = some a2) (hid2 : idOf a2 = x)
    (hpost : ∀ r ∈ post, ∀ a, of? r = some a → idOf a ≠ x) :
    alookup ((pre ++ r1 :: (mid ++ r2 :: post)).foldl (dictStep idOf of?) []) x = some a2 := by
  rw [alookup_foldl_dictStep]
  simp only [List.foldl_append, List.foldl_cons]
  rw [pickStep_hit idOf of? x r2 a2 hof2 hid2]
  exact foldl_pickStep_skip idOf of? x post (some a2) hpost

/-- C2 (amended). For every query date `d`, the served bucket holds, in
bundle order: the encounters whose `start_date[:10]` equals
`d[:10]` — including encounters with an empty `start_date`, which land
in the bucket with key `""` because the walker indexes encounters
unconditionally — and, for each of the six other kinds, exactly the
resources whose date field is non-empty and truncates to `d[:10]`.
(Encounter lists are compared up to linkage-list erasure because the
source aliases bucket entries with the linked collection.) The original
claim fails on both counts for encounters and empty dates. -/
theorem C2_date_index (entries : List RawResource) (rec : PatientRecord)
    (hok : extract_patient_record entries = .ok rec) (d : String) :
    (get_events_for_date rec d).encounters.map eraseLinks
        = (encFilter entries (take10 d)).map eraseLinks ∧
    (get_events_for_date rec d).conditions = condFilter entries (take10 d) ∧
    (get_events_for_date rec d).medications = medFilter entries (take10 d) ∧
    (get_events_for_date rec d).observations = obsFilter entries (take10 d) ∧
    (get_events_for_date rec d).procedures = procFilter entries (take10 d) ∧
    (get_events_for_date rec d).immunizations = immFilter entries (take10 d) ∧
    (get_events_for_date rec d).diagnostic_reports = repFilter entries (take10 d) := by
  rw [bucket_of_extract entries rec hok d]
  exact ⟨rfl, rfl, rfl, rfl, rfl, rfl, rfl⟩

/-- C2, as stated, is false on the code: in `cx2Bundle` the encounter
"e0" has no period, so its empty `start_date` still lands in the bucket
keyed `""` (refuting "a resource with an absent or empty date appears in
no bucket"), while the condition "c1" with empty onset is absent from
that same (present) bucket even though its truncated date equals the key
(refuting the "exactly" direction). -/
theorem C2_counterexample :
    isOkE (extract_patient_record cx2Bundle) = true ∧
    c2UndatedCheck cx2Rec = false ∧
    c2IndexedCheck cx2Rec = false := by decide

/-- Witness: the amended C2 applied to a concrete bundle and a query
date carrying a time component. -/
theorem C2_witness :
    take10 "2020-05-01T23:59:59" = "2020-05-01" ∧
    (get_events_for_date c2wRec "2020-05-01T23:59:59").conditions
        = condFilter c2wBundle (take10 "2020-05-01T23:59:59") :=
  ⟨by decide, (C2_date_index c2wBundle c2wRec (by decide) "2020-05-01T23:59:59").2.1⟩

/-- C3 (confirmed). `get_events_for_date` truncates its argument to ten
characters, returns the stored bucket when one exists and otherwise the
fixed-shape bucket whose seven lists are all empty; it is total (never
raises, never returns an absent value — its model is a plain function
into `DateBucket`). -/
theorem C3_events_for_date (rec : PatientRecord) (d : String) :
    (∀ b, alookup rec.events_by_date (take10 d) = some b → get_events_for_date rec d = b) ∧
    (alookup rec.events_by_date (take10 d) = none →
      get_events_for_date rec d = emptyBucket) ∧
    emptyBucket.encounters = [] ∧ emptyBucket.conditions = [] ∧
    emptyBucket.medications = [] ∧ emptyBucket.observations = [] ∧
    emptyBucket.procedures = [] ∧ emptyBucket.immunizations = [] ∧
    emptyBucket.diagnostic_reports = [] ∧
    get_events_for_date rec d = get_events_for_date rec (take10 d) := by
  refine ⟨?_, ?_, rfl, rfl, rfl, rfl, rfl, rfl, rfl, ?_⟩
  · intro b hb
    simp [get_events_for_date, hb]
  · intro hb
    simp [get_events_for_date, hb]
  · simp [get_events_for_date, take10, List.take_take]

/-- Witness: C3 applied at a stored date and at an unindexed date. -/
theorem C3_witness :
    get_events_for_date c3wRec "2020-05-01T10:00:00Z" =
      { emptyBucket with conditions := [⟨"c9", "", "", "", "2020-05-01", none, none⟩] } ∧
    get_events_for_date c3wRec "1999-01-01" = emptyBucket :=
  ⟨(C3_events_for_date c3wRec "2020-05-01T10:00:00Z").1 _ (by decide),
   (C3_events_for_date c3wRec "1999-01-01").2.1 (by decide)⟩

/-- C4 (amended). A bundle with no Patient entry still yields a record,
but its `patient` field is absent (`None`) — not a `Patient` with empty
id. A caller reading `patient.id` would hit an `AttributeError`; the
in-repo consumer guards `record.patient` itself first
(`json_to_csv.py`). -/
theorem C4_missing_patient (entries : List RawResource) (rec : PatientRecord)
    (hok : extract_patient_record entries = .ok rec)
    (hnopat : ∀ raw, RawResource.patient raw ∉ entries) :
    rec.patient = none := by
  rw [rec_patient_eq entries rec hok]
  exact foldl_patStep_skip entries none hnopat

/-- C4, as stated, is false on the code: extracting a bundle without a
Patient resource leaves `patient` as `None`, not a patient whose id is
the empty string. -/
theorem C4_counterexample :
    (extract_patient_record c4wBundle).map (fun r => r.patient.map Patient.id) = .ok none ∧
    (none : Option String) ≠ some "" := by decide

/-- Witness: the amended C4 applied to a one-condition bundle. -/
theorem C4_witness : c4wRec.patient = none :=
  C4_missing_patient c4wBundle c4wRec (by decide)
    (by
      intro raw h
      simp [c4wBundle] at h)

/-- C5 (amended). `presented_form` is the in-order concatenation of the
per-form contributions, where a decodable form contributes its decoded
text followed by a newline and a non-decodable form contributes its raw
data with no separator at all (so the newline is a terminator of decoded
contributions, not a separator between arbitrary contributions). -/
theorem C5_presented_form (raw : RawDiagnosticReport) (rep : DiagnosticReport)
    (hok : extract_diagnostic_report raw = .ok rep) :
    rep.presented_form = concatAll ((raw.presentedForm.getD []).map contribOfForm) ∧
    (∀ dstr t, tryDecode dstr = some t → contribOfForm ⟨some dstr⟩ = t ++ "\n") ∧
    (∀ dstr, tryDecode dstr = none → contribOfForm ⟨some dstr⟩ = dstr) := by
  refine ⟨?_, ?_, ?_⟩
  · unfold extract_diagnostic_report at hok
    simp only [Bind.bind, Except.bind, pure, Except.pure] at hok
    repeat' split at hok
    all_goals try exact (Except.noConfusion hok)
    all_goals injection hok with h2
    all_goals subst h2
    all_goals
      rw [show (DiagnosticReport.presented_form _) =
        (raw.presentedForm.getD []).foldl (fun acc form => acc ++ contribOfForm form) "" from rfl]
    all_goals rw [foldl_contrib_concat, empty_append_str]
  · intro dstr t h
    simp [contribOfForm, h]
  · intro dstr h
    simp [contribOfForm, h]

/-- C5, as stated, is false on the code: two forms whose data "A" is not
valid base64 (one character is one more than a multiple of four) are
passed through raw and concatenated with no newline between them. -/
theorem C5_counterexample :
    (extract_diagnostic_report c5cxRaw).map (fun r => r.presented_form) = .ok "AA" ∧
    tryDecode "A" = none ∧
    ("AA" : String) ≠ "A" ++ "\n" ++ "A" := by decide

/-- Witness: the amended C5 on a report with one decodable ("QQ==" →
"A") and one non-decodable ("A") form. -/
theorem C5_witness :
    c5wRep.presented_form = concatAll ((c5wRaw.presentedForm.getD []).map contribOfForm) ∧
    c5wRep.presented_form = "A\nA" :=
  ⟨(C5_presented_form c5wRaw c5wRep (by decide)).1, by decide⟩

/-- C7 (amended). `is_active` holds iff `clinical_status = "active"` and
`abatement_date` is falsy — absent or the empty string, because the
source tests Python truthiness (`not self.abatement_date`), not `is
None`; and `get_active_conditions` is exactly the insertion-order filter
of the condition collection by that predicate. -/
theorem C7_is_active (rec : PatientRecord) (c : Condition) :
    (c.is_active = true ↔
      (c.clinical_status = "active" ∧
        (c.abatement_date = none ∨ c.abatement_date = some ""))) ∧
    get_active_conditions rec = (valuesOf rec.conditions).filter (fun x => x.is_active) ∧
    (∀ x : Condition, x ∈ get_active_conditions rec ↔
      x ∈ valuesOf rec.conditions ∧ x.is_active = true) ∧
    (get_active_conditions rec).Sublist (valuesOf rec.conditions) := by
  refine ⟨?_, rfl, ?_, ?_⟩
  · cases habt : c.abatement_date with
    | none => simp [Condition.is_active, pyTruthy, habt]
    | some s =>
      by_cases hs : s = "" <;> simp [Condition.is_active, pyTruthy, habt, hs]
  · intro x
    simp [get_active_conditions, List.mem_filter]
  · exact List.filter_sublist _

/-- C7, as stated, is false on the code: a condition with
`clinical_status = "active"` and `abatement_date = ""` (present but
empty, so falsy) is reported active even though its abatement date is
not `None`. -/
theorem C7_counterexample :
    Condition.is_active ⟨"c", "", "", "active", "", some "", none⟩ = true ∧
    (some "" : Option String) ≠ none := by decide

/-- C8 (confirmed). When `birth_date` starts with a four-digit year `Y`
followed by a dash, `age` is `2025 - Y`: the reference year is the
hard-coded literal 2025, independent of any supplied current date. -/
theorem C8_age (p : Patient) (Y : Nat) (ds rest : List Char)
    (hdata : p.birth_date.data = ds ++ '-' :: rest)
    (hlen : ds.length = 4)
    (hdig : ∀ c ∈ ds, c.isDigit = true)
    (hval : digitsVal ds = Y) :
    Patient.age p = some (2025 - (Y : Int)) := by
  have hall : ∀ c ∈ ds, (fun c => decide (c ≠ '-')) c = true := by
    intro c hc
    have hd := hdig c hc
    simp only [decide_eq_true_eq]
    intro he
    rw [he] at hd
    simp at hd
  have htw : p.birth_date.data.takeWhile (fun c => decide (c ≠ '-')) = ds := by
    rw [hdata]
    exact takeWhile_append_of _ ds rest hall (by decide)
  have hne : ds ≠ [] := by
    intro h0
    rw [h0] at hlen
    cases hlen
  have hdigall : ds.all Char.isDigit = true := by
    rw [List.all_eq_true]
    exact hdig
  rw [Patient.age, htw, pyIntDigits, if_pos ⟨hne, hdigall⟩, hval]
  rfl

/-- Witness: C8 on birth date "1980-01-01" gives age 45 = 2025 - 1980. -/
theorem C8_witness : Patient.age c8wPatient = some 45 := by
  have h := C8_age c8wPatient 1980 ['1', '9', '8', '0'] "01-01".data (by decide) (by decide)
    (by decide) (by decide)
  rw [h]
  decide

/-- C10 (confirmed). `get_events_for_date` reads the date index with
`dict.get`, which — unlike the `[...]` indexing the walker applies to
this defaultdict — never materialises a bucket: the record and its set
of indexed date keys are unchanged, and the returned bucket is the same
value the pure query computes. -/
theorem C10_frame (rec : PatientRecord) (d : String) :
    (get_events_for_date_s rec d).2 = rec ∧
    keysOf (get_events_for_date_s rec d).2.events_by_date = keysOf rec.events_by_date ∧
    (get_events_for_date_s rec d).1 = get_events_for_date rec d :=
  ⟨rfl, rfl, rfl⟩

/-- C9 (confirmed). When a bundle carries two entries of the same
resource kind with the same id, both with usable dates (and no later
entry of that kind reuses the id), the kind collection maps the id to
the entity of the later entry only, while the date-index buckets contain
both extracted entities — so the collection and the index can disagree
on how many entities of the kind exist. Encounters are compared up to
linkage-list erasure because the second pass mutates the collection's
(aliased) objects. -/
theorem C9_duplicate_ids (pre mid post : List RawResource) (r1 r2 : RawResource)
    (K : Kind) (x : String) (e1 e2 : Entity) (rec : PatientRecord)
    (hk1 : kindOf? r1 = some K) (hk2 : kindOf? r2 = some K)
    (h1 : entityOf? r1 = some e1) (h2 : entityOf? r2 = some e2)
    (hid1 : e1.idOf = x) (hid2 : e2.idOf = x)
    (hd1 : e1.dateOf ≠ "") (hd2 : e2.dateOf ≠ "")
    (hpost : ∀ r ∈ post, kindOf? r = some K → ∀ ent, entityOf? r = some ent → ent.idOf ≠ x)
    (hok : extract_patient_record (pre ++ r1 :: (mid ++ r2 :: post)) = .ok rec) :
    recLookup rec K x = some e2 ∧
    e1 ∈ bucketEntities (get_events_for_date rec e1.dateOf) K ∧
    e2 ∈ bucketEntities (get_events_for_date rec e2.dateOf) K := by
  cases K with
  | encounter =>
    cases r2 with
      | patient raw2 => simp [kindOf?] at hk2
      | condition raw2 => simp [kindOf?] at hk2
      | medicationRequest raw2 => simp [kindOf?] at hk2
      | observation raw2 => simp [kindOf?] at hk2
      | procedure raw2 => simp [kindOf?] at hk2
      | immunization raw2 => simp [kindOf?] at hk2
      | diagnosticReport raw2 => simp [kindOf?] at hk2
      | other => simp [kindOf?] at hk2
      | encounter raw2 =>
      cases r1 with
      | patient raw1 => simp [kindOf?] at hk1
      | condition raw1 => simp [kindOf?] at hk1
      | medicationRequest raw1 => simp [kindOf?] at hk1
      | observation raw1 => simp [kindOf?] at hk1
      | procedure raw1 => simp [kindOf?] at hk1
      | immunization raw1 => simp [kindOf?] at hk1
      | diagnosticReport raw1 => simp [kindOf?] at hk1
      | other => simp [kindOf?] at hk1
      | encounter raw1 =>
        simp only [entityOf?] at h1 h2
        cases hx1 : extract_encounter raw1 with
        | error err => rw [hx1] at h1; simp [Except.toOption] at h1
        | ok c1 =>
          cases hx2 : extract_encounter raw2 with
          | error err => rw [hx2] at h2; simp [Except.toOption] at h2
          | ok c2 =>
            rw [hx1] at h1
            rw [hx2] at h2
            simp only [Except.toOption, Option.map_some', Option.some.injEq] at h1 h2
            subst h1
            subst h2
            simp only [Entity.idOf, eraseLinks, setLists] at hid1 hid2
            simp only [Entity.dateOf, eraseLinks, setLists] at hd1 hd2 ⊢
            have hof2 : encOf? (RawResource.encounter raw2) = some c2 := by
              simp [encOf?, hx2, Except.toOption]
            have hpost2 : ∀ r ∈ post, ∀ a : Encounter, encOf? r = some a → a.id ≠ x := by
              intro r hr a ha
              cases r with
              | patient raw3 => simp [encOf?] at ha
              | condition raw3 => simp [encOf?] at ha
              | medicationRequest raw3 => simp [encOf?] at ha
              | observation raw3 => simp [encOf?] at ha
              | procedure raw3 => simp [encOf?] at ha
              | immunization raw3 => simp [encOf?] at ha
              | diagnosticReport raw3 => simp [encOf?] at ha
              | other => simp [encOf?] at ha
              | encounter raw3 =>
                cases hx3 : extract_encounter raw3 with
                | error err => simp [encOf?, hx3, Except.toOption] at ha
                | ok c3 =>
                  simp only [encOf?, hx3, Except.toOption, Option.some.injEq] at ha
                  have hent := hpost _ hr (by simp [kindOf?]) (Entity.enc (eraseLinks c3)) (by
                    simp [entityOf?, hx3, Except.toOption])
                  simp only [Entity.idOf, eraseLinks, setLists] at hent
                  rw [← ha]
                  exact hent
            refine ⟨?_, ?_, ?_⟩
            · simp only [recLookup]
              rw [rec_encounters_eq _ rec hok]
              have hmm : ∀ (o : Option Encounter),
                  o.map (fun e => Entity.enc (eraseLinks e)) =
                    (o.map eraseLinks).map Entity.enc := by
                intro o; cases o <;> rfl
              rw [hmm, linkPass_alookup_erase,
                pick_last Encounter.id encOf? x pre mid post (RawResource.encounter raw1)
                  (RawResource.encounter raw2) c2 hof2 hid2 hpost2]
              rfl
            · rw [bucket_of_extract _ rec hok c1.start_date]
              simp only [bucketEntities, List.mem_map]
              refine ⟨c1, ?_, rfl⟩
              simp only [encFilter, List.mem_filterMap]
              refine ⟨RawResource.encounter raw1, by simp, ?_⟩
              simp [encOf?, hx1, Except.toOption]
            · rw [bucket_of_extract _ rec hok c2.start_date]
              simp only [bucketEntities, List.mem_map]
              refine ⟨c2, ?_, rfl⟩
              simp only [encFilter, List.mem_filterMap]
              refine ⟨RawResource.encounter raw2, by simp, ?_⟩
              simp [encOf?, hx2, Except.toOption]
  | condition =>
    cases r2 with
      | patient raw2 => simp [kindOf?] at hk2
      | encounter raw2 => simp [kindOf?] at hk2
      | medicationRequest raw2 => simp [kindOf?] at hk2
      | observation raw2 => simp [kindOf?] at hk2
      | procedure raw2 => simp [kindOf?] at hk2
      | immunization raw2 => simp [kindOf?] at hk2
      | diagnosticReport raw2 => simp [kindOf?] at hk2
      | other => simp [kindOf?] at hk2
      | condition raw2 =>
      cases r1 with
      | patient raw1 => simp [kindOf?] at hk1
      | encounter raw1 => simp [kindOf?] at hk1
      | medicationRequest raw1 => simp [kindOf?] at hk1
      | observation raw1 => simp [kindOf?] at hk1
      | procedure raw1 => simp [kindOf?] at hk1
      | immunization raw1 => simp [kindOf?] at hk1
      | diagnosticReport raw1 => simp [kindOf?] at hk1
      | other => simp [kindOf?] at hk1
      | condition raw1 =>
        simp only [entityOf?] at h1 h2
        cases hx1 : extract_condition raw1 with
        | error err => rw [hx1] at h1; simp [Except.toOption] at h1
        | ok c1 =>
          cases hx2 : extract_condition raw2 with
          | error err => rw [hx2] at h2; simp [Except.toOption] at h2
          | ok c2 =>
            rw [hx1] at h1
            rw [hx2] at h2
            simp only [Except.toOption, Option.map_some', Option.some.injEq] at h1 h2
            subst h1
            subst h2
            simp only [Entity.idOf] at hid1 hid2
            simp only [Entity.dateOf] at hd1 hd2 ⊢
            have hof2 : condOf? (RawResource.condition raw2) = some c2 := by
              simp [condOf?, hx2, Except.toOption]
            have hpost2 : ∀ r ∈ post, ∀ a : Condition, condOf? r = some a → a.id ≠ x := by
              intro r hr a ha
              cases r with
              | patient raw3 => simp [condOf?] at ha
              | encounter raw3 => simp [condOf?] at ha
              | medicationRequest raw3 => simp [condOf?] at ha
              | observation raw3 => simp [condOf?] at ha
              | procedure raw3 => simp [condOf?] at ha
              | immunization raw3 => simp [condOf?] at ha
              | diagnosticReport raw3 => simp [condOf?] at ha
              | other => simp [condOf?] at ha
              | condition raw3 =>
                cases hx3 : extract_condition raw3 with
                | error err => simp [condOf?, hx3, Except.toOption] at ha
                | ok c3 =>
                  simp only [condOf?, hx3, Except.toOption, Option.some.injEq] at ha
                  have hent := hpost _ hr (by simp [kindOf?]) (Entity.cond c3) (by
                    simp [entityOf?, hx3, Except.toOption])
                  simp only [Entity.idOf] at hent
                  rw [← ha]
                  exact hent
            refine ⟨?_, ?_, ?_⟩
            · simp only [recLookup]
              rw [rec_conditions_eq _ rec hok,
                pick_last Condition.id condOf? x pre mid post (RawResource.condition raw1)
                  (RawResource.condition raw2) c2 hof2 hid2 hpost2]
              rfl
            · rw [bucket_of_extract _ rec hok c1.onset_date]
              simp only [bucketEntities, List.mem_map]
              refine ⟨c1, ?_, rfl⟩
              simp only [condFilter, List.mem_filterMap]
              refine ⟨RawResource.condition raw1, by simp, ?_⟩
              simp [condOf?, hx1, Except.toOption, hd1]
            · rw [bucket_of_extract _ rec hok c2.onset_date]
              simp only [bucketEntities, List.mem_map]
              refine ⟨c2, ?_, rfl⟩
              simp only [condFilter, List.mem_filterMap]
              refine ⟨RawResource.condition raw2, by simp, ?_⟩
              simp [condOf?, hx2, Except.toOption, hd2]
  | medication =>
    cases r2 with
      | patient raw2 => simp [kindOf?] at hk2
      | encounter raw2 => simp [kindOf?] at hk2
      | condition raw2 => simp [kindOf?] at hk2
      | observation raw2 => simp [kindOf?] at hk2
      | procedure raw2 => simp [kindOf?] at hk2
      | immunization raw2 => simp [kindOf?] at hk2
      | diagnosticReport raw2 => simp [kindOf?] at hk2
      | other => simp [kindOf?] at hk2
      | medicationRequest raw2 =>
      cases r1 with
      | patient raw1 => simp [kindOf?] at hk1
      | encounter raw1 => simp [kindOf?] at hk1
      | condition raw1 => simp [kindOf?] at hk1
      | observation raw1 => simp [kindOf?] at hk1
      | procedure raw1 => simp [kindOf?] at hk1
      | immunization raw1 => simp [kindOf?] at hk1
      | diagnosticReport raw1 => simp [kindOf?] at hk1
      | other => simp [kindOf?] at hk1
      | medicationRequest raw1 =>
        simp only [entityOf?] at h1 h2
        cases hx1 : extract_medication raw1 with
        | error err => rw [hx1] at h1; simp [Except.toOption] at h1
        | ok c1 =>
          cases hx2 : extract_medication raw2 with
          | error err => rw [hx2] at h2; simp [Except.toOption] at h2
          | ok c2 =>
            rw [hx1] at h1
            rw [hx2] at h2
            simp only [Except.toOption, Option.map_some', Option.some.injEq] at h1 h2
            subst h1
            subst h2
            simp only [Entity.idOf] at hid1 hid2
            simp only [Entity.dateOf] at hd1 hd2 ⊢
            have hof2 : medOf? (RawResource.medicationRequest raw2) = some c2 := by
              simp [medOf?, hx2, Except.toOption]
            have hpost2 : ∀ r ∈ post, ∀ a : Medication, medOf? r = some a → a.id ≠ x := by
              intro r hr a ha
              cases r with
              | patient raw3 => simp [medOf?] at ha
              | encounter raw3 => simp [medOf?] at ha
              | condition raw3 => simp [medOf?] at ha
              | observation raw3 => simp [medOf?] at ha
              | procedure raw3 => simp [medOf?] at ha
              | immunization raw3 => simp [medOf?] at ha
              | diagnosticReport raw3 => simp [medOf?] at ha
              | other => simp [medOf?] at ha
              | medicationRequest raw3 =>
                cases hx3 : extract_medication raw3 with
                | error err => simp [medOf?, hx3, Except.toOption] at ha
                | ok c3 =>
                  simp only [medOf?, hx3, Except.toOption, Option.some.injEq] at ha
                  have hent := hpost _ hr (by simp [kindOf?]) (Entity.med c3) (by
                    simp [entityOf?, hx3, Except.toOption])
                  simp only [Entity.idOf] at hent
                  rw [← ha]
                  exact hent
            refine ⟨?_, ?_, ?_⟩
            · simp only [recLookup]
              rw [rec_medications_eq _ rec hok,
                pick_last Medication.id medOf? x pre mid post (RawResource.medicationRequest raw1)
                  (RawResource.medicationRequest raw2) c2 hof2 hid2 hpost2]
              rfl
            · rw [bucket_of_extract _ rec hok c1.authored_on]
              simp only [bucketEntities, List.mem_map]
              refine ⟨c1, ?_, rfl⟩
              simp only [medFilter, List.mem_filterMap]
              refine ⟨RawResource.medicationRequest raw1, by simp, ?_⟩
              simp [medOf?, hx1, Except.toOption, hd1]
            · rw [bucket_of_extract _ rec hok c2.authored_on]
              simp only [bucketEntities, List.mem_map]
              refine ⟨c2, ?_, rfl⟩
              simp only [medFilter, List.mem_filterMap]
              refine ⟨RawResource.medicationRequest raw2, by simp, ?_⟩
              simp [medOf?, hx2, Except.toOption, hd2]
  | observation =>
    cases r2 with
      | patient raw2 => simp [kindOf?] at hk2
      | encounter raw2 => simp [kindOf?] at hk2
      | condition raw2 => simp [kindOf?] at hk2
      | medicationRequest raw2 => simp [kindOf?] at hk2
      | procedure raw2 => simp [kindOf?] at hk2
      | immunization raw2 => simp [kindOf?] at hk2
      | diagnosticReport raw2 => simp [kindOf?] at hk2
      | other => simp [kindOf?] at hk2
      | observation raw2 =>
      cases r1 with
      | patient raw1 => simp [kindOf?] at hk1
      | encounter raw1 => simp [kindOf?] at hk1
      | condition raw1 => simp [kindOf?] at hk1
      | medicationRequest raw1 => simp [kindOf?] at hk1
      | procedure raw1 => simp [kindOf?] at hk1
      | immunization raw1 => simp [kindOf?] at hk1
      | diagnosticReport raw1 => simp [kindOf?] at hk1
      | other => simp [kindOf?] at hk1
      | observation raw1 =>
        simp only [entityOf?] at h1 h2
        cases hx1 : extract_observation raw1 with
        | error err => rw [hx1] at h1; simp [Except.toOption] at h1
        | ok c1 =>
          cases hx2 : extract_observation raw2 with
          | error err => rw [hx2] at h2; simp [Except.toOption] at h2
          | ok c2 =>
            rw [hx1] at h1
            rw [hx2] at h2
            simp only [Except.toOption, Option.map_some', Option.some.injEq] at h1 h2
            subst h1
            subst h2
            simp only [Entity.idOf] at hid1 hid2
            simp only [Entity.dateOf] at hd1 hd2 ⊢
            have hof2 : obsOf? (RawResource.observation raw2) = some c2 := by
              simp [obsOf?, hx2, Except.toOption]
            have hpost2 : ∀ r ∈ post, ∀ a : Observation, obsOf? r = some a → a.id ≠ x := by
              intro r hr a ha
              cases r with
              | patient raw3 => simp [obsOf?] at ha
              | encounter raw3 => simp [obsOf?] at ha
              | condition raw3 => simp [obsOf?] at ha
              | medicationRequest raw3 => simp [obsOf?] at ha
              | procedure raw3 => simp [obsOf?] at ha
              | immunization raw3 => simp [obsOf?] at ha
              | diagnosticReport raw3 => simp [obsOf?] at ha
              | other => simp [obsOf?] at ha
              | observation raw3 =>
                cases hx3 : extract_observation raw3 with
                | error err => simp [obsOf?, hx3, Except.toOption] at ha
                | ok c3 =>
                  simp only [obsOf?, hx3, Except.toOption, Option.some.injEq] at ha
                  have hent := hpost _ hr (by simp [kindOf?]) (Entity.obs c3) (by
                    simp [entityOf?, hx3, Except.toOption])
                  simp only [Entity.idOf] at hent
                  rw [← ha]
                  exact hent
            refine ⟨?_, ?_, ?_⟩
            · simp only [recLookup]
              rw [rec_observations_eq _ rec hok,
                pick_last Observation.id obsOf? x pre mid post (RawResource.observation raw1)
                  (RawResource.observation raw2) c2 hof2 hid2 hpost2]
              rfl
            · rw [bucket_of_extract _ rec hok c1.effective_date]
              simp only [bucketEntities, List.mem_map]
              refine ⟨c1, ?_, rfl⟩
              simp only [obsFilter, List.mem_filterMap]
              refine ⟨RawResource.observation raw1, by simp, ?_⟩
              simp [obsOf?, hx1, Except.toOption, hd1]
            · rw [bucket_of_extract _ rec hok c2.effective_date]
              simp only [bucketEntities, List.mem_map]
              refine ⟨c2, ?_, rfl⟩
              simp only [obsFilter, List.mem_filterMap]
              refine ⟨RawResource.observation raw2, by simp, ?_⟩
              simp [obsOf?, hx2, Except.toOption, hd2]
  | procedure =>
    cases r2 with
      | patient raw2 => simp [kindOf?] at hk2
      | encounter raw2 => simp [kindOf?] at hk2
      | condition raw2 => simp [kindOf?] at hk2
      | medicationRequest raw2 => simp [kindOf?] at hk2
      | observation raw2 => simp [kindOf?] at hk2
      | immunization raw2 => simp [kindOf?] at hk2
      | diagnosticReport raw2 => simp [kindOf?] at hk2
      | other => simp [kindOf?] at hk2
      | procedure raw2 =>
      cases r1 with
      | patient raw1 => simp [kindOf?] at hk1
      | encounter raw1 => simp [kindOf?] at hk1
      | condition raw1 => simp [kindOf?] at hk1
      | medicationRequest raw1 => simp [kindOf?] at hk1
      | observation raw1 => simp [kindOf?] at hk1
      | immunization raw1 => simp [kindOf?] at hk1
      | diagnosticReport raw1 => simp [kindOf?] at hk1
      | other => simp [kindOf?] at hk1
      | procedure raw1 =>
        simp only [entityOf?] at h1 h2
        cases hx1 : extract_procedure raw1 with
        | error err => rw [hx1] at h1; simp [Except.toOption] at h1
        | ok c1 =>
          cases hx2 : extract_procedure raw2 with
          | error err => rw [hx2] at h2; simp [Except.toOption] at h2
          | ok c2 =>
            rw [hx1] at h1
            rw [hx2] at h2
            simp only [Except.toOption, Option.map_some', Option.some.injEq] at h1 h2
            subst h1
            subst h2
            simp only [Entity.idOf] at hid1 hid2
            simp only [Entity.dateOf] at hd1 hd2 ⊢
            have hof2 : procOf? (RawResource.procedure raw2) = some c2 := by
              simp [procOf?, hx2, Except.toOption]
            have hpost2 : ∀ r ∈ post, ∀ a : Procedure, procOf? r = some a → a.id ≠ x := by
              intro r hr a ha
              cases r with
              | patient raw3 => simp [procOf?] at ha
              | encounter raw3 => simp [procOf?] at ha
              | condition raw3 => simp [procOf?] at ha
              | medicationRequest raw3 => simp [procOf?] at ha
              | observation raw3 => simp [procOf?] at ha
              | immunization raw3 => simp [procOf?] at ha
              | diagnosticReport raw3 => simp [procOf?] at ha
              | other => simp [procOf?] at ha
              | procedure raw3 =>
                cases hx3 : extract_procedure raw3 with
                | error err => simp [procOf?, hx3, Except.toOption] at ha
                | ok c3 =>
                  simp only [procOf?, hx3, Except.toOption, Option.some.injEq] at ha
                  have hent := hpost _ hr (by simp [kindOf?]) (Entity.proc c3) (by
                    simp [entityOf?, hx3, Except.toOption])
                  simp only [Entity.idOf] at hent
                  rw [← ha]
                  exact hent
            refine ⟨?_, ?_, ?_⟩
            · simp only [recLookup]
              rw [rec_procedures_eq _ rec hok,
                pick_last Procedure.id procOf? x pre mid post (RawResource.procedure raw1)
                  (RawResource.procedure raw2) c2 hof2 hid2 hpost2]
              rfl
            · rw [bucket_of_extract _ rec hok c1.performed_date]
              simp only [bucketEntities, List.mem_map]
              refine ⟨c1, ?_, rfl⟩
              simp only [procFilter, List.mem_filterMap]
              refine ⟨RawResource.procedure raw1, by simp, ?_⟩
              simp [procOf?, hx1, Except.toOption, hd1]
            · rw [bucket_of_extract _ rec hok c2.performed_date]
              simp only [bucketEntities, List.mem_map]
              refine ⟨c2, ?_, rfl⟩
              simp only [procFilter, List.mem_filterMap]
              refine ⟨RawResource.procedure raw2, by simp, ?_⟩
              simp [procOf?, hx2, Except.toOption, hd2]
  | immunization =>
    cases r2 with
      | patient raw2 => simp [kindOf?] at hk2
      | encounter raw2 => simp [kindOf?] at hk2
      | condition raw2 => simp [kindOf?] at hk2
      | medicationRequest raw2 => simp [kindOf?] at hk2
      | observation raw2 => simp [kindOf?] at hk2
      | procedure raw2 => simp [kindOf?] at hk2
      | diagnosticReport raw2 => simp [kindOf?] at hk2
      | other => simp [kindOf?] at hk2
      | immunization raw2 =>
      cases r1 with
      | patient raw1 => simp [kindOf?] at hk1
      | encounter raw1 => simp [kindOf?] at hk1
      | condition raw1 => simp [kindOf?] at hk1
      | medicationRequest raw1 => simp [kindOf?] at hk1
      | observation raw1 => simp [kindOf?] at hk1
      | procedure raw1 => simp [kindOf?] at hk1
      | diagnosticReport raw1 => simp [kindOf?] at hk1
      | other => simp [kindOf?] at hk1
      | immunization raw1 =>
        simp only [entityOf?] at h1 h2
        cases hx1 : extract_immunization raw1 with
        | error err => rw [hx1] at h1; simp [Except.toOption] at h1
        | ok c1 =>
          cases hx2 : extract_immunization raw2 with
          | error err => rw [hx2] at h2; simp [Except.toOption] at h2
          | ok c2 =>
            rw [hx1] at h1
            rw [hx2] at h2
            simp only [Except.toOption, Option.map_some', Option.some.injEq] at h1 h2
            subst h1
            subst h2
            simp only [Entity.idOf] at hid1 hid2
            simp only [Entity.dateOf] at hd1 hd2 ⊢
            have hof2 : immOf? (RawResource.immunization raw2) = some c2 := by
              simp [immOf?, hx2, Except.toOption]
            have hpost2 : ∀ r ∈ post, ∀ a : Immunization, immOf? r = some a → a.id ≠ x := by
              intro r hr a ha
              cases r with
              | patient raw3 => simp [immOf?] at ha
              | encounter raw3 => simp [immOf?] at ha
              | condition raw3 => simp [immOf?] at ha
              | medicationRequest raw3 => simp [immOf?] at ha
              | observation raw3 => simp [immOf?] at ha
              | procedure raw3 => simp [immOf?] at ha
              | diagnosticReport raw3 => simp [immOf?] at ha
              | other => simp [immOf?] at ha
              | immunization raw3 =>
                cases hx3 : extract_immunization raw3 with
                | error err => simp [immOf?, hx3, Except.toOption] at ha
                | ok c3 =>
                  simp only [immOf?, hx3, Except.toOption, Option.some.injEq] at ha
                  have hent := hpost _ hr (by simp [kindOf?]) (Entity.imm c3) (by
                    simp [entityOf?, hx3, Except.toOption])
                  simp only [Entity.idOf] at hent
                  rw [← ha]
                  exact hent
            refine ⟨?_, ?_, ?_⟩
            · simp only [recLookup]
              rw [rec_immunizations_eq _ rec hok,
                pick_last Immunization.id immOf? x pre mid post (RawResource.immunization raw1)
                  (RawResource.immunization raw2) c2 hof2 hid2 hpost2]
              rfl
            · rw [bucket_of_extract _ rec hok c1.occurrence_date]
              simp only [bucketEntities, List.mem_map]
              refine ⟨c1, ?_, rfl⟩
              simp only [immFilter, List.mem_filterMap]
              refine ⟨RawResource.immunization raw1, by simp, ?_⟩
              simp [immOf?, hx1, Except.toOption, hd1]
            · rw [bucket_of_extract _ rec hok c2.occurrence_date]
              simp only [bucketEntities, List.mem_map]
              refine ⟨c2, ?_, rfl⟩
              simp only [immFilter, List.mem_filterMap]
              refine ⟨RawResource.immunization raw2, by simp, ?_⟩
              simp [immOf?, hx2, Except.toOption, hd2]
  | diagnosticReport =>
    cases r2 with
      | patient raw2 => simp [kindOf?] at hk2
      | encounter raw2 => simp [kindOf?] at hk2
      | condition raw2 => simp [kindOf?] at hk2
      | medicationRequest raw2 => simp [kindOf?] at hk2
      | observation raw2 => simp [kindOf?] at hk2
      | procedure raw2 => simp [kindOf?] at hk2
      | immunization raw2 => simp [kindOf?] at hk2
      | other => simp [kindOf?] at hk2
      | diagnosticReport raw2 =>
      cases r1 with
      | patient raw1 => simp [kindOf?] at hk1
      | encounter raw1 => simp [kindOf?] at hk1
      | condition raw1 => simp [kindOf?] at hk1
      | medicationRequest raw1 => simp [kindOf?] at hk1
      | observation raw1 => simp [kindOf?] at hk1
      | procedure raw1 => simp [kindOf?] at hk1
      | immunization raw1 => simp [kindOf?] at hk1
      | other => simp [kindOf?] at hk1
      | diagnosticReport raw1 =>
        simp only [entityOf?] at h1 h2
        cases hx1 : extract_diagnostic_report raw1 with
        | error err => rw [hx1] at h1; simp [Except.toOption] at h1
        | ok c1 =>
          cases hx2 : extract_diagnostic_report raw2 with
          | error err => rw [hx2] at h2; simp [Except.toOption] at h2
          | ok c2 =>
            rw [hx1] at h1
            rw [hx2] at h2
            simp only [Except.toOption, Option.map_some', Option.some.injEq] at h1 h2
            subst h1
            subst h2
            simp only [Entity.idOf] at hid1 hid2
            simp only [Entity.dateOf] at hd1 hd2 ⊢
            have hof2 : repOf? (RawResource.diagnosticReport raw2) = some c2 := by
              simp [repOf?, hx2, Except.toOption]
            have hpost2 : ∀ r ∈ post, ∀ a : DiagnosticReport, repOf? r = some a → a.id ≠ x := by
              intro r hr a ha
              cases r with
              | patient raw3 => simp [repOf?] at ha
              | encounter raw3 => simp [repOf?] at ha
              | condition raw3 => simp [repOf?] at ha
              | medicationRequest raw3 => simp [repOf?] at ha
              | observation raw3 => simp [repOf?] at ha
              | procedure raw3 => simp [repOf?] at ha
              | immunization raw3 => simp [repOf?] at ha
              | other => simp [repOf?] at ha
              | diagnosticReport raw3 =>
                cases hx3 : extract_diagnostic_report raw3 with
                | error err => simp [repOf?, hx3, Except.toOption] at ha
                | ok c3 =>
                  simp only [repOf?, hx3, Except.toOption, Option.some.injEq] at ha
                  have hent := hpost _ hr (by simp [kindOf?]) (Entity.rep c3) (by
                    simp [entityOf?, hx3, Except.toOption])
                  simp only [Entity.idOf] at hent
                  rw [← ha]
                  exact hent
            refine ⟨?_, ?_, ?_⟩
            · simp only [recLookup]
              rw [rec_reports_eq _ rec hok,
                pick_last DiagnosticReport.id repOf? x pre mid post (RawResource.diagnosticReport raw1)
                  (RawResource.diagnosticReport raw2) c2 hof2 hid2 hpost2]
              rfl
            · rw [bucket_of_extract _ rec hok c1.effective_date]
              simp only [bucketEntities, List.mem_map]
              refine ⟨c1, ?_, rfl⟩
              simp only [repFilter, List.mem_filterMap]
              refine ⟨RawResource.diagnosticReport raw1, by simp, ?_⟩
              simp [repOf?, hx1, Except.toOption, hd1]
            · rw [bucket_of_extract _ rec hok c2.effective_date]
              simp only [bucketEntities, List.mem_map]
              refine ⟨c2, ?_, rfl⟩
              simp only [repFilter, List.mem_filterMap]
              refine ⟨RawResource.diagnosticReport raw2, by simp, ?_⟩
              simp [repOf?, hx2, Except.toOption, hd2]

/-- Witness: C9 on a bundle with two conditions sharing id "c" and
different onset dates. -/
theorem C9_witness :
    recLookup c9wRec Kind.condition "c" = some c9wEnt2 ∧
    c9wEnt1 ∈ bucketEntities (get_events_for_date c9wRec c9wEnt1.dateOf) Kind.condition ∧
    c9wEnt2 ∈ bucketEntities (get_events_for_date c9wRec c9wEnt2.dateOf) Kind.condition :=
  C9_duplicate_ids [] [] []
    (.condition (rawCondOf (some "c") none (some "2020-01-01T08:00:00Z")))
    (.condition (rawCondOf (some "c") none (some "2021-02-02T08:00:00Z")))
    Kind.condition "c" c9wEnt1 c9wEnt2 c9wRec
    (by decide) (by decide) (by decide) (by decide) (by decide) (by decide)
    (by decide) (by decide) (by simp) (by decide)

/-! ## Extractor totality and defaults (claim C6) -/

theorem firstCoding_none_eq : firstCoding (none : Option RawCodeable) = .ok emptyCoding := rfl

theorem firstCoding_ok (oc : Option RawCodeable) (h : codingOkB oc = true) :
    ∃ cd, firstCoding oc = .ok cd := by
  cases oc with
  | none => exact ⟨emptyCoding, rfl⟩
  | some cc =>
    cases hcc : cc.coding with
    | none => exact ⟨emptyCoding, by simp [firstCoding, hcc, pyIndex0]⟩
    | some l =>
      cases l with
      | nil => simp [codingOkB, hcc] at h
      | cons a t => exact ⟨a, by simp [firstCoding, hcc, pyIndex0]⟩

theorem condition_defaults : ConditionDefaults := by
  intro r hokb
  rw [conditionOkB, Bool.and_eq_true] at hokb
  obtain ⟨cd, hcd⟩ := firstCoding_ok r.code hokb.1
  obtain ⟨sd, hsd⟩ := firstCoding_ok r.clinicalStatus hokb.2
  have hex : extract_condition r = .ok
      { id := r.id.getD "", code := cd.code.getD "", display := cd.display.getD ""
        clinical_status := sd.code.getD "", onset_date := r.onsetDateTime.getD ""
        abatement_date := r.abatementDateTime, encounter_ref := refOf r.encounter } := by
    unfold extract_condition
    simp [Bind.bind, Except.bind, pure, Except.pure, hcd, hsd]
  refine ⟨_, hex, ?_, ?_, ?_, ?_, ?_, ?_⟩
  · intro habs; simp [habs]
  · intro habs
    rw [habs, firstCoding_none_eq] at hcd
    injection hcd with hh
    rw [← hh]
    exact ⟨rfl, rfl⟩
  · intro habs
    rw [habs, firstCoding_none_eq] at hsd
    injection hsd with hh
    rw [← hh]
    rfl
  · intro habs; simp [habs]
  · intro habs; simp [habs]
  · intro habs; simp [habs, refOf, emptyReference]

theorem medication_defaults : MedicationDefaults := by
  intro r hokb
  rw [medicationOkB] at hokb
  obtain ⟨cd, hcd⟩ := firstCoding_ok r.medicationCodeableConcept hokb
  have hex : extract_medication r = .ok
      { id := r.id.getD "", code := cd.code.getD "", display := cd.display.getD ""
        status := r.status.getD "", authored_on := r.authoredOn.getD ""
        dosage_text :=
          match r.dosageInstruction.getD [] with
          | [] => ""
          | d :: _ => d.text.getD ""
        reason_code := ""
        reason_display := if (r.reasonReference.getD []) ≠ [] then "See conditions" else ""
        encounter_ref := refOf r.encounter } := by
    unfold extract_medication
    simp [Bind.bind, Except.bind, pure, Except.pure, hcd]
  refine ⟨_, hex, ?_, ?_, ?_, ?_, ?_, ?_, ?_⟩
  · intro habs; simp [habs]
  · intro habs
    rw [habs, firstCoding_none_eq] at hcd
    injection hcd with hh
    rw [← hh]
    exact ⟨rfl, rfl⟩
  · intro habs; simp [habs]
  · intro habs; simp [habs]
  · intro habs; simp [habs]
  · intro habs; simp [habs]
  · intro habs; simp [habs, refOf, emptyReference]

theorem observation_defaults : ObservationDefaults := by
  intro r hokb
  rw [observationOkB, Bool.and_eq_true] at hokb
  obtain ⟨cd, hcd⟩ := firstCoding_ok r.code hokb.1
  have hcat : ∃ s, obsCategory r = .ok s ∧ (r.category = none → s = "") := by
    cases hc : r.category with
    | none => exact ⟨"", by simp [obsCategory, hc, pure, Except.pure], fun _ => rfl⟩
    | some l =>
      cases l with
      | nil => exact ⟨"", by simp [obsCategory, hc, pure, Except.pure], by simp [hc]⟩
      | cons c0 t =>
        have hok2 := hokb.2
        rw [hc] at hok2
        cases hcc : c0.coding with
        | none =>
          refine ⟨emptyCoding.code.getD "", ?_, by simp [hc]⟩
          simp [obsCategory, hc, hcc, pyIndex0, Bind.bind, Except.bind, pure, Except.pure]
        | some cl =>
          cases cl with
          | nil => simp [hcc] at hok2
          | cons a t2 =>
            refine ⟨a.code.getD "", ?_, by simp [hc]⟩
            simp [obsCategory, hc, hcc, pyIndex0, Bind.bind, Except.bind, pure, Except.pure]
  obtain ⟨cat, hcat2, hcatnone⟩ := hcat
  have hex : extract_observation r = .ok
      { id := r.id.getD "", code := cd.code.getD "", display := cd.display.getD ""
        value :=
          (match r.valueQuantity with
           | some q => ((q.value.map ObsValue.vnum).getD ObsValue.vnone, q.unit.getD "")
           | none =>
             match r.valueCodeableConcept with
             | some v => (ObsValue.vstr (v.text.getD ""), "")
             | none =>
               match r.valueString with
               | some s => (ObsValue.vstr s, "")
               | none => (ObsValue.vnone, "")).1
        unit :=
          (match r.valueQuantity with
           | some q => ((q.value.map ObsValue.vnum).getD ObsValue.vnone, q.unit.getD "")
           | none =>
             match r.valueCodeableConcept with
             | some v => (ObsValue.vstr (v.text.getD ""), "")
             | none =>
               match r.valueString with
               | some s => (ObsValue.vstr s, "")
               | none => (ObsValue.vnone, "")).2
        effective_date := r.effectiveDateTime.getD "", category := cat
        encounter_ref := refOf r.encounter } := by
    unfold extract_observation
    simp [Bind.bind, Except.bind, pure, Except.pure, hcd, hcat2]
  refine ⟨_, hex, ?_, ?_, ?_, ?_, ?_, ?_⟩
  · intro habs; simp [habs]
  · intro habs
    rw [habs, firstCoding_none_eq] at hcd
    injection hcd with hh
    rw [← hh]
    exact ⟨rfl, rfl⟩
  · intro h1 h2 h3; simp [h1, h2, h3]
  · intro habs; simp [habs]
  · intro habs; exact hcatnone habs
  · intro habs; simp [habs, refOf, emptyReference]

theorem procedure_defaults : ProcedureDefaults := by
  intro r hokb
  rw [procedureOkB] at hokb
  obtain ⟨cd, hcd⟩ := firstCoding_ok r.code hokb
  have hex : extract_procedure r = .ok
      { id := r.id.getD "", code := cd.code.getD "", display := cd.display.getD ""
        performed_date :=
          if (r.performedDateTime.getD "") = "" then
            match r.performedPeriod with
            | some pp => pp.start.getD ""
            | none => r.performedDateTime.getD ""
          else r.performedDateTime.getD ""
        status := r.status.getD "", reason_code := ""
        reason_display := if (r.reasonReference.getD []) ≠ [] then "See conditions" else ""
        encounter_ref := refOf r.encounter } := by
    unfold extract_procedure
    simp [Bind.bind, Except.bind, pure, Except.pure, hcd]
  refine ⟨_, hex, ?_, ?_, ?_, ?_, ?_, ?_⟩
  · intro habs; simp [habs]
  · intro habs
    rw [habs, firstCoding_none_eq] at hcd
    injection hcd with hh
    rw [← hh]
    exact ⟨rfl, rfl⟩
  · intro h1 h2; simp [h1, h2]
  · intro habs; simp [habs]
  · intro habs; simp [habs]
  · intro habs; simp [habs, refOf, emptyReference]

theorem immunization_defaults : ImmunizationDefaults := by
  intro r hokb
  rw [immunizationOkB] at hokb
  obtain ⟨cd, hcd⟩ := firstCoding_ok r.vaccineCode hokb
  have hcd' : pyIndex0 ((r.vaccineCode.getD emptyCodeable).coding.getD [emptyCoding]) =
      .ok cd := hcd
  have hex : extract_immunization r = .ok
      { id := r.id.getD "", vaccine_code := cd.code.getD ""
        vaccine_display :=
          pyOr (cd.display.getD "") ((r.vaccineCode.getD emptyCodeable).text.getD "")
        occurrence_date := r.occurrenceDateTime.getD "", status := r.status.getD ""
        encounter_ref := refOf r.encounter
        dose_number :=
          (match r.protocolApplied with
           | some [] => ((none : Option Int), some "")
           | some (p :: _) => (p.doseNumberPositiveInt, some (p.series.getD ""))
           | none => (none, none)).1
        series :=
          (match r.protocolApplied with
           | some [] => ((none : Option Int), some "")
           | some (p :: _) => (p.doseNumberPositiveInt, some (p.series.getD ""))
           | none => (none, none)).2 } := by
    unfold extract_immunization
    simp [Bind.bind, Except.bind, pure, Except.pure, hcd']
  refine ⟨_, hex, ?_, ?_, ?_, ?_, ?_, ?_⟩
  · intro habs; simp [habs]
  · intro habs
    rw [habs, firstCoding_none_eq] at hcd
    injection hcd with hh
    rw [← hh, habs]
    exact ⟨rfl, by simp [pyOr, emptyCodeable, emptyCoding]⟩
  · intro habs; simp [habs]
  · intro habs; simp [habs]
  · intro habs; simp [habs]
  · intro habs; simp [habs, refOf, emptyReference]

theorem report_defaults : ReportDefaults := by
  intro r hokb
  rw [reportOkB] at hokb
  obtain ⟨cd, hcd⟩ := firstCoding_ok r.code hokb
  have hex : extract_diagnostic_report r = .ok
      { id := r.id.getD "", code := cd.code.getD "", display := cd.display.getD ""
        effective_date :=
          if (r.effectiveDateTime.getD "") = "" then
            match r.effectivePeriod with
            | some pp => pp.start.getD ""
            | none => r.effectiveDateTime.getD ""
          else r.effectiveDateTime.getD ""
        conclusion := r.conclusion.getD ""
        presented_form :=
          (r.presentedForm.getD []).foldl (fun acc form => acc ++ contribOfForm form) ""
        encounter_ref := refOf r.encounter } := by
    unfold extract_diagnostic_report
    simp [Bind.bind, Except.bind, pure, Except.pure, hcd]
  refine ⟨_, hex, ?_, ?_, ?_, ?_, ?_, ?_⟩
  · intro habs; simp [habs]
  · intro habs
    rw [habs, firstCoding_none_eq] at hcd
    injection hcd with hh
    rw [← hh]
    exact ⟨rfl, rfl⟩
  · intro habs; simp [habs]
  · intro h1 h2; simp [h1, h2]
  · intro habs; simp [habs]
  · intro habs; simp [habs, refOf, emptyReference]

theorem encounter_defaults : EncounterDefaults := by
  intro r hokb
  rw [encounterOkB, Bool.and_eq_true] at hokb
  have htc : ∃ tc, encTypeCoding r = .ok tc ∧ (r.type_ = none → tc = emptyCoding) := by
    cases ht : r.type_ with
    | none => exact ⟨emptyCoding, by simp [encTypeCoding, ht, pure, Except.pure], fun _ => rfl⟩
    | some l =>
      cases l with
      | nil => exact ⟨emptyCoding, by simp [encTypeCoding, ht, pure, Except.pure], by simp [ht]⟩
      | cons t0 ts =>
        have hok1 := hokb.1
        rw [ht] at hok1
        cases hcc : t0.coding with
        | none =>
          exact ⟨emptyCoding, by simp [encTypeCoding, ht, hcc, pyIndex0], by simp [ht]⟩
        | some cl =>
          cases cl with
          | nil => simp [hcc] at hok1
          | cons a t2 =>
            exact ⟨a, by simp [encTypeCoding, ht, hcc, pyIndex0], by simp [ht]⟩
  have hrc : ∃ rcd, encReason r = .ok rcd ∧ (r.reasonCode = none → rcd = ("", "")) := by
    cases hr : r.reasonCode with
    | none => exact ⟨("", ""), by simp [encReason, hr, pure, Except.pure], fun _ => rfl⟩
    | some l =>
      cases l with
      | nil => exact ⟨("", ""), by simp [encReason, hr, pure, Except.pure], by simp [hr]⟩
      | cons rc0 rs =>
        have hok2 := hokb.2
        rw [hr] at hok2
        cases hcc : rc0.coding with
        | none =>
          refine ⟨(emptyCoding.code.getD "", emptyCoding.display.getD ""), ?_, by simp [hr]⟩
          simp [encReason, hr, hcc, pyIndex0, Bind.bind, Except.bind, pure, Except.pure]
        | some cl =>
          cases cl with
          | nil => simp [hcc] at hok2
          | cons a t2 =>
            refine ⟨(a.code.getD "", a.display.getD ""), ?_, by simp [hr]⟩
            simp [encReason, hr, hcc, pyIndex0, Bind.bind, Except.bind, pure, Except.pure]
  obtain ⟨tc, htc2, htcnone⟩ := htc
  obtain ⟨rcd, hrc2, hrcnone⟩ := hrc
  have hex : extract_encounter r = .ok
      { id := r.id.getD "", type_code := tc.code.getD ""
        type_display := pyOr (tc.display.getD "") "General Encounter"
        class_code := (r.class_.getD emptyClass).code.getD ""
        class_display :=
          pyOr ((r.class_.getD emptyClass).display.getD "")
            ((r.class_.getD emptyClass).code.getD "ambulatory")
        start_date := (r.period.getD emptyPeriod).start.getD ""
        end_date := (r.period.getD emptyPeriod).end_
        reason_code := rcd.1, reason_display := pyOr rcd.2 "Routine follow-up"
        service_provider := (r.serviceProvider.getD emptyProvider).display.getD ""
        conditions := [], medications := [], observations := [], procedures := []
        immunizations := [], diagnostic_reports := [] } := by
    unfold extract_encounter
    simp [Bind.bind, Except.bind, pure, Except.pure, htc2, hrc2]
  refine ⟨_, hex, ?_, ?_, ?_, ?_, ?_, ?_⟩
  · intro habs; simp [habs]
  · intro habs
    rw [htcnone habs]
    exact ⟨rfl, by simp [pyOr, emptyCoding]⟩
  · intro habs
    simp [habs, emptyClass, pyOr]
  · intro habs
    simp [habs, emptyPeriod]
  · intro habs
    rw [hrcnone habs]
    exact ⟨rfl, by simp [pyOr]⟩
  · intro habs; simp [habs, emptyProvider]

theorem patient_defaults : PatientDefaults := by
  intro r hokb
  rw [patientOkB, Bool.and_eq_true] at hokb
  have hn : ∃ np, pyIndex0 (r.name.getD [emptyName]) = .ok np ∧
      (r.name = none → np = emptyName) := by
    cases hname : r.name with
    | none => exact ⟨emptyName, rfl, fun _ => rfl⟩
    | some l =>
      cases l with
      | nil =>
        rw [hname] at hokb
        simp at hokb
      | cons a t => exact ⟨a, rfl, by simp [hname]⟩
  have ha : ∃ ap, pyIndex0 (r.address.getD [emptyAddress]) = .ok ap ∧
      (r.address = none → ap = emptyAddress) := by
    cases haddr : r.address with
    | none => exact ⟨emptyAddress, rfl, fun _ => rfl⟩
    | some l =>
      cases l with
      | nil =>
        rw [haddr] at hokb
        simp at hokb
      | cons a t => exact ⟨a, rfl, by simp [haddr]⟩
  obtain ⟨np, hnp, hnpnone⟩ := hn
  obtain ⟨ap, hap, hapnone⟩ := ha
  have hex : extract_patient r = .ok
      { id := r.id.getD ""
        name := pyStrip (pyJoin " " (np.given.getD []) ++ " " ++ np.family.getD "")
        birth_date := r.birthDate.getD "", gender := r.gender.getD ""
        race := ((r.extension.getD []).foldl raceEthStep ("", "")).1
        ethnicity := ((r.extension.getD []).foldl raceEthStep ("", "")).2
        marital_status := (r.maritalStatus.getD emptyCodeable).text.getD ""
        address :=
          pyStripCommaSpace (pyJoin ", " (ap.line.getD []) ++ ", " ++ ap.city.getD "" ++ ", "
            ++ ap.state.getD "" ++ " " ++ ap.postalCode.getD "")
        phone := findPhone (r.telecom.getD []) } := by
    unfold extract_patient
    simp [Bind.bind, Except.bind, pure, Except.pure, hnp, hap]
  refine ⟨_, hex, ?_, ?_, ?_, ?_, ?_, ?_, ?_, ?_⟩
  · intro habs; simp [habs]
  · intro habs
    rw [hnpnone habs]
    show pyStrip (pyJoin " " (emptyName.given.getD []) ++ " " ++ emptyName.family.getD "") = ""
    decide
  · intro habs; simp [habs]
  · intro habs; simp [habs]
  · intro habs; simp [habs, emptyCodeable]
  · intro habs; simp [habs, findPhone]
  · intro habs; simp [habs]
  · intro habs
    rw [hapnone habs]
    show pyStripCommaSpace (pyJoin ", " (emptyAddress.line.getD []) ++ ", "
      ++ emptyAddress.city.getD "" ++ ", " ++ emptyAddress.state.getD "" ++ " "
      ++ emptyAddress.postalCode.getD "") = ""
    decide

/-- C6 (amended). Every extractor is total on raw records whose present
list-valued fields are non-empty — absent optional keys are always
safe — and every field read from an absent key gets its documented
default (empty string, `None`, `("")` reference, or the fixed fallback
labels "General Encounter", "ambulatory" and "Routine follow-up"). The
original claim's unconditional "never raises" is false: a
present-but-empty list that the source indexes with `[0]` (for example
`Patient.name = []`, or a coded concept with `coding = []`) raises
`IndexError`. -/
theorem C6_optional_defaults :
    PatientDefaults ∧ ConditionDefaults ∧ MedicationDefaults ∧ ObservationDefaults ∧
      ProcedureDefaults ∧ ImmunizationDefaults ∧ ReportDefaults ∧ EncounterDefaults :=
  ⟨patient_defaults, condition_defaults, medication_defaults, observation_defaults,
    procedure_defaults, immunization_defaults, report_defaults, encounter_defaults⟩

/-- C6, as stated, is false on the code: a Patient record whose only
present key is `name = []` (every optional key in the claim's "subset"
is absent) makes `_extract_patient` raise `IndexError` instead of
returning an entity. -/
theorem C6_counterexample :
    extract_patient ⟨none, some [], none, none, none, none, none, none⟩ =
      .error "IndexError" := by decide

/-- Witness: all eight extractors succeed with the documented defaults
on fully blank records. -/
theorem C6_witness :
    isOkE (extract_patient blankRawPatient) = true ∧
    isOkE (extract_condition blankRawCondition) = true ∧
    isOkE (extract_medication blankRawMedication) = true ∧
    isOkE (extract_observation blankRawObservation) = true ∧
    isOkE (extract_procedure blankRawProcedure) = true ∧
    isOkE (extract_immunization blankRawImmunization) = true ∧
    isOkE (extract_diagnostic_report blankRawReport) = true ∧
    isOkE (extract_encounter blankRawEncounter) = true := by
  obtain ⟨p, hp, -⟩ := C6_optional_defaults.1 blankRawPatient (by decide)
  obtain ⟨c, hc, -⟩ := C6_optional_defaults.2.1 blankRawCondition (by decide)
  obtain ⟨m, hm, -⟩ := C6_optional_defaults.2.2.1 blankRawMedication (by decide)
  obtain ⟨o, ho, -⟩ := C6_optional_defaults.2.2.2.1 blankRawObservation (by decide)
  obtain ⟨pr, hpr, -⟩ := C6_optional_defaults.2.2.2.2.1 blankRawProcedure (by decide)
  obtain ⟨im, him, -⟩ := C6_optional_defaults.2.2.2.2.2.1 blankRawImmunization (by decide)
  obtain ⟨dr, hdr, -⟩ := C6_optional_defaults.2.2.2.2.2.2.1 blankRawReport (by decide)
  obtain ⟨e, he, -⟩ := C6_optional_defaults.2.2.2.2.2.2.2 blankRawEncounter (by decide)
  rw [hp, hc, hm, ho, hpr, him, hdr, he]
  exact ⟨rfl, rfl, rfl, rfl, rfl, rfl, rfl, rfl⟩

end Synthea
